import Mathlib

set_option maxHeartbeats 1000000

namespace Swift

/-!
A shallow embedding of the declaration parser in `lib/Parse/ParseDecl.cpp`
(an early Swift compiler).  Token-level control flow, diagnostics, scope
insertion and the forward-reference (type-alias stub) registry are modelled
directly from the source; the external sub-parsers the file consumes as
black boxes (`parseType`, `parseTypeTupleBody`, `parseValueSpecifier`,
`parseStmtBrace`, `parseTypeIdentifier`) are modelled as oracle functions,
and the scope registry's operations are modelled from the spec where their
implementation is outside this file.
-/

/-- Token kinds used by the declaration parser. -/
inductive TokKind where
  | identifier
  | oper
  | numeric_constant
  | l_square
  | r_square
  | l_paren
  | l_paren_space
  | r_paren
  | l_brace
  | r_brace
  | comma
  | colon
  | coloncolon
  | equal
  | period
  | arrow
  | kw_import
  | kw_extension
  | kw_var
  | kw_typealias
  | kw_oneof
  | kw_struct
  | kw_protocol
  | kw_func
  | eof
  | unknown
deriving DecidableEq, Repr

/-- A lexed token: kind, literal text and source location. -/
structure Token where
  kind : TokKind
  text : String
  loc : Nat
deriving DecidableEq, Repr

/-- Diagnostic kinds emitted by ParseDecl.cpp (names follow `diag::`). -/
inductive DiagKind where
  | duplicate_attribute
  | expected_precedence_value
  | invalid_precedence
  | unknown_attribute
  | expected_attribute_name
  | expected_in_attribute_list
  | opening_bracket
  | expected_decl
  | import_inner_scope
  | disallowed_var_decl
  | operator_in_decl
  | decl_expected_module_name
  | expected_identifier_in_decl
  | import_attributes
  | expected_lbrace_oneof_type
  | expected_rbrace_extension
  | opening_brace
  | expected_lparen_var_name
  | expected_rparen_var_name
  | opening_paren
  | expected_colon_in_typealias
  | expected_type_in_typealias
  | invalid_index_in_var_name_path
  | non_simple_var
  | func_decl_without_paren
  | expected_type_oneof_element
  | expected_rbrace_oneof_type
  | duplicate_oneof_element
  | previous_definition
  | oneof_attributes
  | expected_lbrace_struct
  | struct_unnamed_member
  | expected_rbrace_struct
  | expected_lbrace_protocol_type
  | expected_protocol_member
  | protocol_attributes
deriving DecidableEq, Repr

/-- A diagnostic report: source location plus message kind. -/
structure Diag where
  loc : Nat
  kind : DiagKind
deriving DecidableEq, Repr

/-- Operator associativity (`Associativity` in the source). -/
inductive Assoc where
  | leftA
  | rightA
  | noneA
deriving DecidableEq, Repr

/-- `InfixData`: a precedence in [0,255] together with an associativity. -/
structure FixData where
  prec : Nat
  assoc : Assoc
deriving DecidableEq, Repr

/-- `DeclAttributes`: bracket locations plus the optional fixity attribute. -/
structure DeclAttributes where
  lsqLoc : Option Nat
  rsqLoc : Option Nat
  fixAttr : Option FixData
deriving DecidableEq, Repr

/-- Attributes with nothing set (a default-constructed `DeclAttributes`). -/
def emptyDeclAttributes : DeclAttributes := ⟨none, none, none⟩

/-- `DeclAttributes::isInfix()` — whether a fixity attribute has been set. -/
def DeclAttributes.isFix (a : DeclAttributes) : Bool := a.fixAttr.isSome

/-- `DeclAttributes::empty()` — no recognized attribute recorded. -/
def DeclAttributes.isEmpty (a : DeclAttributes) : Bool := a.fixAttr.isNone

/-- Types (`swift::Type`).  `aliasTy i` is the `NameAliasType` of the
type-alias declaration with arena index `i`; `oneofRef`/`protoRef` are the
identities of constructed `OneOfType`/`ProtocolType` objects (index-based
back-references into the parser state's arenas); `dependent` is the
unresolved placeholder `DependentType`; `base` stands for opaque types
produced by the external type parser. -/
inductive Ty where
  | aliasTy (id : Nat)
  | tuple (fields : List (Option String × Ty))
  | fn (arg : Ty) (res : Ty)
  | oneofRef (id : Nat)
  | protoRef (id : Nat)
  | dependent
  | base (name : String)

/-- `isa<FunctionType>(t)`: the type is spelled as a function type. -/
def Ty.isFnTy : Ty → Bool
  | .fn _ _ => true
  | _ => false

mutual
/-- Whether a written type mentions an arrow anywhere (used to state the
spec's "contains no arrow" condition; a top-level `fn` implies this). -/
def containsArrow : Ty → Bool
  | .fn _ _ => true
  | .tuple fs => containsArrowFields fs
  | _ => false

/-- `containsArrow` over the fields of a tuple type. -/
def containsArrowFields : List (Option String × Ty) → Bool
  | [] => false
  | f :: fs => containsArrow f.2 || containsArrowFields fs
end

/-- Declaration contexts (`DeclContext`), as index-based references. -/
inductive Ctx where
  | tu
  | oneofCtx (id : Nat)
  | protoCtx (id : Nat)
  | funcExprCtx (id : Nat)
deriving DecidableEq, Repr

/-- Expressions are produced by the external expression parser; opaque. -/
def Expr := Nat
deriving instance DecidableEq, Repr for Expr

/-- Statements are produced by the external statement parser; opaque. -/
def Stmt := Nat
deriving instance DecidableEq, Repr for Stmt

/-- `DeclVarName`: a var binding pattern — a single identifier or a
parenthesized, possibly-nested list of sub-patterns. -/
inductive DeclVarName where
  | simple (id : String) (loc : Nat)
  | tupleN (lp : Nat) (children : List DeclVarName) (rp : Nat)

/-- `DeclVarName::isSimple()`. -/
def DeclVarName.isSimple : DeclVarName → Bool
  | .simple _ _ => true
  | _ => false

/-- `VarDecl`: either a simple named binding (`name` set) or a composite
destructuring binding (`nestedName` set). -/
structure VarDecl where
  loc : Nat
  name : Option String
  nestedName : Option DeclVarName
  ty : Ty
  init : Option Expr
  attrs : DeclAttributes
  ctx : Ctx

/-- `ElementRefDecl`: one leaf of a destructured var binding, addressed by
an access path of tuple-field indices from the root. -/
structure ElementRefDecl where
  vd : VarDecl
  loc : Nat
  name : String
  accessPath : List Nat
  ty : Ty
  ctx : Ctx

/-- `FuncDecl`: name, computed function type, optional body. -/
structure FuncDecl where
  loc : Nat
  name : String
  ty : Ty
  body : Option Stmt
  attrs : DeclAttributes
  ctx : Ctx

/-- `OneOfElementDecl`: a tagged-union case with its computed type and
optional payload (argument) type. -/
structure OneOfEltDecl where
  nameLoc : Nat
  name : String
  ty : Ty
  argTy : Option Ty
  ctx : Ctx

/-- Declarations produced by the parser.  `typeAliasD` carries the arena
index of the alias (its mutable underlying type lives in the state). -/
inductive Decl where
  | importD (loc : Nat) (path : List String) (ctx : Ctx)
  | extD (loc : Nat) (ty : Ty) (members : List Decl) (ctx : Ctx)
  | typeAliasD (id : Nat) (name : String) (loc : Nat) (ctx : Ctx)
  | var (vd : VarDecl)
  | elementRef (e : ElementRefDecl)
  | funcD (f : FuncDecl)
  | oneofElt (e : OneOfEltDecl)

/-- The name under which a declaration is registered in scope, if any. -/
def Decl.nameOf : Decl → Option String
  | .importD _ _ _ => none
  | .extD _ _ _ _ => none
  | .typeAliasD _ n _ _ => some n
  | .var vd => vd.name
  | .elementRef e => some e.name
  | .funcD f => some f.name
  | .oneofElt e => some e.name

/-- `Decl::getLocStart()`. -/
def Decl.locOf : Decl → Nat
  | .importD l _ _ => l
  | .extD l _ _ _ => l
  | .typeAliasD _ _ l _ => l
  | .var vd => vd.loc
  | .elementRef e => e.loc
  | .funcD f => f.loc
  | .oneofElt e => e.nameLoc

/-- `Decl::setDeclContext`. -/
def Decl.setCtx (c : Ctx) : Decl → Decl
  | .importD l p _ => .importD l p c
  | .extD l t m _ => .extD l t m c
  | .typeAliasD i n l _ => .typeAliasD i n l c
  | .var vd => .var {vd with ctx := c}
  | .elementRef e => .elementRef {e with ctx := c}
  | .funcD f => .funcD {f with ctx := c}
  | .oneofElt e => .oneofElt {e with ctx := c}

/-- The declaration context a declaration currently records. -/
def Decl.ctxOf : Decl → Ctx
  | .importD _ _ c => c
  | .extD _ _ _ c => c
  | .typeAliasD _ _ _ c => c
  | .var vd => vd.ctx
  | .elementRef e => e.ctx
  | .funcD f => f.ctx
  | .oneofElt e => e.ctx

/-- Modelled from the spec: `NamedDecl::isOperator()` — the declaration's
name is an operator symbol (does not start with a letter or underscore). -/
def isOperatorName (s : String) : Bool :=
  match s.data with
  | [] => false
  | c :: _ => !(c.isAlpha || c = '_')

/-- A type-alias declaration's arena record: *stub* while `underlying` is
`none`, *complete* once it is set. -/
structure AliasInfo where
  name : String
  loc : Nat
  underlying : Option Ty

/-- The parser's mutable state: remaining tokens, emitted diagnostics, the
current scope (name-to-declaration insertions, most recent first), the
type-alias arena, the two unresolved-alias worklists kept by `ScopeInfo`
(file scope and block scope), the scope depth, a counter for fresh
`OneOfType`/`ProtocolType`/`FuncExpr` identities, the arenas of constructed
oneof and protocol types, and the current declaration context. -/
structure PState where
  toks : List Token
  diags : List Diag
  scope : List (String × Decl)
  aliases : List AliasInfo
  unresolved : List Nat
  unresolvedScoped : List Nat
  scopeDepth : Nat
  nextTypeId : Nat
  oneofs : List (Nat × List OneOfEltDecl)
  protos : List (Nat × List Decl)
  curCtx : Ctx

/-- Modelled from the spec: the external sub-parsers ParseDecl.cpp consumes
as black boxes.  Each takes the remaining token stream and either fails or
returns a value plus the remaining tokens; `parseValueSpec` additionally
sees the current scope (the expression it parses resolves names there). -/
structure Oracles where
  parseType : List Token → Option (Ty × List Token)
  parseTypeIdent : List Token → Option (Ty × List Token)
  parseTupleBody : Nat → List Token → Option (List (Option String × Ty) × List Token)
  parseValueSpec : List (String × Decl) → List Token →
      Option ((Option Ty × Option Expr) × List Token)
  parseStmtBrace : List Token → Option (Stmt × List Token)

/-- The current token; an exhausted stream reads as `eof`. -/
def curTok (toks : List Token) : Token := toks.headD ⟨.eof, "", 0⟩

/-- Modelled from the spec: `Parser::skipUntil(T1, T2)` — skip tokens until
the current token is `T1`, `T2` or end of file (never consuming it). -/
def skipUntil2 (k1 k2 : TokKind) : List Token → List Token
  | [] => []
  | t :: ts =>
    if t.kind = k1 ∨ t.kind = k2 ∨ t.kind = .eof then t :: ts
    else skipUntil2 k1 k2 ts

/-- Modelled from the spec: `Parser::skipUntil(T1)`. -/
def skipUntil1 (k : TokKind) (ts : List Token) : List Token := skipUntil2 k k ts

/-- Token kinds that begin a declaration (for recovery skipping). -/
def isStartOfDecl (k : TokKind) : Bool :=
  match k with
  | .kw_import | .kw_extension | .kw_var | .kw_typealias | .kw_oneof
  | .kw_struct | .kw_protocol | .kw_func => true
  | _ => false

/-- Modelled from the spec: `Parser::skipUntilDeclRBrace()` — skip to the
next declaration-start keyword, `}` or end of file. -/
def skipUntilDeclRBrace : List Token → List Token
  | [] => []
  | t :: ts =>
    if isStartOfDecl t.kind ∨ t.kind = .r_brace ∨ t.kind = .eof then t :: ts
    else skipUntilDeclRBrace ts

/-- Modelled from the spec: `Parser::parseIdentifier` — consume an
identifier (or operator used as a name) and return its text and location,
otherwise report the supplied diagnostic without consuming. -/
def parseIdentifierTok (dk : DiagKind) (toks : List Token) :
    Option (String × Nat) × List Token × List Diag :=
  let t := curTok toks
  if t.kind = .identifier ∨ t.kind = .oper then (some (t.text, t.loc), toks.tail, [])
  else (none, toks, [⟨t.loc, dk⟩])

/-- The numeric value of a decimal digit character, if it is one. -/
def digitVal? (c : Char) : Option Nat :=
  if c = '0' then some 0 else if c = '1' then some 1 else if c = '2' then some 2
  else if c = '3' then some 3 else if c = '4' then some 4 else if c = '5' then some 5
  else if c = '6' then some 6 else if c = '7' then some 7 else if c = '8' then some 8
  else if c = '9' then some 9 else none

/-- Decimal accumulation over the characters of a literal (`none` until a
first digit is seen; any non-digit makes the whole literal invalid). -/
def decDigits? : List Char → Option Nat → Option Nat
  | [], acc => acc
  | c :: cs, acc =>
    match digitVal? c, acc with
    | some d, some n => decDigits? cs (some (n * 10 + d))
    | some d, none => decDigits? cs (some d)
    | none, _ => none

/-- Modelled from the spec: `StringRef::getAsInteger(10, Value)` on a
numeric-constant token's text — the token's decimal value, or `none` when
the text is not a plain decimal numeral. -/
def tokenNat? (s : String) : Option Nat := decDigits? s.data none

/-- `isInfixAttr`: map the fixity attribute spellings to associativities. -/
def assocFor : String → Option Assoc
  | "infix_left" => some .leftA
  | "infix_right" => some .rightA
  | "infix" => some .noneA
  | _ => none

/-- `Parser::parseAttribute` (ParseDecl.cpp:105).  Returns the had-error
flag (true aborts the list), the updated attributes, the remaining tokens
and the diagnostics emitted. -/
def parseAttribute (attrs : DeclAttributes) (toks : List Token) :
    Bool × DeclAttributes × List Token × List Diag :=
  let t := curTok toks
  if t.kind = .identifier then
    match assocFor t.text with
    | some assoc =>
      let d0 : List Diag := if attrs.isFix then [⟨t.loc, .duplicate_attribute⟩] else []
      let toks := toks.tail
      -- The default precedence is 100.
      let attrs := {attrs with fixAttr := some ⟨100, assoc⟩}
      if (curTok toks).kind = .equal then
        let toks := toks.tail
        let precTok := curTok toks
        if precTok.kind = .numeric_constant then
          let toks := toks.tail
          match tokenNat? precTok.text with
          | some v =>
            if v > 255 then (false, attrs, toks, d0 ++ [⟨precTok.loc, .invalid_precedence⟩])
            else (false, {attrs with fixAttr := some ⟨v, assoc⟩}, toks, d0)
          | none => (false, attrs, toks, d0 ++ [⟨precTok.loc, .invalid_precedence⟩])
        else
          (false, attrs, skipUntil2 .r_square .comma toks,
           d0 ++ [⟨precTok.loc, .expected_precedence_value⟩])
      else (false, attrs, toks, d0)
    | none => (true, attrs, skipUntil1 .r_square toks, [⟨t.loc, .unknown_attribute⟩])
  else (true, attrs, skipUntil1 .r_square toks, [⟨t.loc, .expected_attribute_name⟩])

/-- The `while (Tok.is(tok::comma))` loop of `parseAttributeListPresent`. -/
def attrListLoop (fuel : Nat) (hadErr : Bool) (attrs : DeclAttributes)
    (toks : List Token) : Bool × DeclAttributes × List Token × List Diag :=
  match fuel with
  | 0 => (hadErr, attrs, toks, [])
  | fuel + 1 =>
    if (curTok toks).kind = .comma then
      let toks := toks.tail
      let (e, attrs, toks, d1) := parseAttribute attrs toks
      let (hadErr, attrs, toks, d2) := attrListLoop fuel (hadErr || e) attrs toks
      (hadErr, attrs, toks, d1 ++ d2)
    else (hadErr, attrs, toks, [])

/-- `Parser::parseAttributeListPresent` (ParseDecl.cpp:150). -/
def parseAttributeListPresent (fuel : Nat) (toks : List Token) :
    DeclAttributes × List Token × List Diag :=
  let lsq := curTok toks
  let toks := toks.tail
  let attrs : DeclAttributes := ⟨some lsq.loc, none, none⟩
  if (curTok toks).kind = .r_square then
    ({attrs with rsqLoc := some (curTok toks).loc}, toks.tail, [])
  else
    let (hadErr, attrs, toks, d1) := parseAttribute attrs toks
    let (hadErr, attrs, toks, d2) := attrListLoop fuel hadErr attrs toks
    let attrs := {attrs with rsqLoc := some (curTok toks).loc}
    if (curTok toks).kind = .r_square then (attrs, toks.tail, d1 ++ d2)
    else
      let d3 : List Diag :=
        if !hadErr then [⟨(curTok toks).loc, .expected_in_attribute_list⟩,
                         ⟨lsq.loc, .opening_bracket⟩]
        else []
      let toks := skipUntil1 .r_square toks
      let toks := if (curTok toks).kind = .r_square then toks.tail else toks
      (attrs, toks, d1 ++ d2 ++ d3)

/-- `Parser::parseAttributeList`: parse the bracketed list if present. -/
def parseAttributeList (fuel : Nat) (toks : List Token) :
    DeclAttributes × List Token × List Diag :=
  if (curTok toks).kind = .l_square then parseAttributeListPresent fuel toks
  else (emptyDeclAttributes, toks, [])

/-- Modelled from the spec: `ScopeInfo.insert(name, declaration)` — register
a declaration in the current scope under its name. -/
def addToScope (d : Decl) (st : PState) : PState :=
  {st with scope := ((Decl.nameOf d).getD "", d) :: st.scope}

/-- Look up a type name in scope, returning the arena index of its
type-alias declaration (type names live in the registry's type table, so
non-alias entries are passed over). -/
def lookupTypeAliasId (name : String) : List (String × Decl) → Option Nat
  | [] => none
  | (n, d) :: rest =>
    match d with
    | .typeAliasD id _ _ _ => if n = name then some id else lookupTypeAliasId name rest
    | _ => lookupTypeAliasId name rest

/-- The underlying type currently recorded for alias `id` (`none` = stub). -/
def aliasUnderlyingIn (st : PState) (id : Nat) : Option Ty :=
  (st.aliases.get? id).bind (·.underlying)

/-- `TypeAliasDecl::hasUnderlyingType()` for the alias at arena index `id`. -/
def hasUnderlyingType (st : PState) (id : Nat) : Bool :=
  (aliasUnderlyingIn st id).isSome

/-- `TypeAliasDecl::setUnderlyingType` for the alias at arena index `id`. -/
def setAliasUnderlying (id : Nat) (u : Option Ty) (st : PState) : PState :=
  match st.aliases.get? id with
  | some a => {st with aliases := st.aliases.set id ⟨a.name, a.loc, u⟩}
  | none => st

/-- Modelled from the spec: `ScopeInfo.addTypeAliasToScope` — if the name
already denotes a still-incomplete alias, complete it with the supplied
underlying type; otherwise create a new alias declaration (a *stub* when no
underlying type is given), register it in scope, and record stubs on the
unresolved-alias worklist (file scope or block scope by depth). -/
def addTypeAliasToScope (loc : Nat) (name : String) (underlying : Option Ty)
    (st : PState) : Nat × PState :=
  match lookupTypeAliasId name st.scope with
  | some id =>
    if (aliasUnderlyingIn st id).isNone then (id, setAliasUnderlying id underlying st)
    else (id, st)
  | none =>
    let id := st.aliases.length
    let st' := {st with
      aliases := st.aliases ++ [⟨name, loc, underlying⟩],
      scope := (name, Decl.typeAliasD id name loc st.curCtx) :: st.scope,
      unresolved :=
        if underlying.isNone ∧ st.scopeDepth = 0 then st.unresolved ++ [id]
        else st.unresolved,
      unresolvedScoped :=
        if underlying.isNone ∧ st.scopeDepth ≠ 0 then st.unresolvedScoped ++ [id]
        else st.unresolvedScoped}
    (id, st')

/-- Modelled from the spec: `ScopeInfo.lookupOrInsertTypeName` — the alias
type of the named type, creating a forward-reference stub if unknown. -/
def lookupOrInsertTypeName (name : String) (loc : Nat) (st : PState) :
    Ty × PState :=
  let (id, st') := addTypeAliasToScope loc name none st
  (.aliasTy id, st')

/-- The `TypeAliasDecl` at arena index `aid`, as a declaration node. -/
def mkAliasDecl (aid : Nat) (st : PState) : Decl :=
  match st.aliases.get? aid with
  | some a => .typeAliasD aid a.name a.loc st.curCtx
  | none => .typeAliasD aid "" 0 st.curCtx

/-- Modelled from the spec: `ElementRefDecl::getTypeForPath` — project a
type along a path of tuple-field indices; a still-unresolved root projects
to `dependent`, an out-of-range index yields `none` (invalid). -/
def getTypeForPath (t : Ty) : List Nat → Option Ty
  | [] => some t
  | i :: rest =>
    match t with
    | .dependent => some .dependent
    | .tuple fields =>
      match fields.get? i with
      | some f => getTypeForPath f.2 rest
      | none => none
    | _ => none

/-- `Parser::parseDeclImport`'s `('.' identifier)*` loop. -/
def importPathLoop (fuel : Nat) (toks : List Token) (acc : List String) :
    Option (List String) × List Token × List Diag :=
  match fuel with
  | 0 => (none, toks, [])
  | fuel + 1 =>
    if (curTok toks).kind = .period then
      let toks := toks.tail
      match parseIdentifierTok .expected_identifier_in_decl toks with
      | (none, toks, ds) => (none, toks, ds)
      | (some (id, _), toks, ds) =>
        let (r, toks, ds2) := importPathLoop fuel toks (acc ++ [id])
        (r, toks, ds ++ ds2)
    else (some acc, toks, [])

/-- `Parser::parseDeclImport` (ParseDecl.cpp:260). -/
def parseDeclImport (fuel : Nat) (ctx : Ctx) (toks0 : List Token) :
    Option Decl × List Token × List Diag :=
  let importLoc := (curTok toks0).loc
  let toks := toks0.tail
  let (attrs, toks, d1) := parseAttributeList fuel toks
  match parseIdentifierTok .decl_expected_module_name toks with
  | (none, toks, d2) => (none, toks, d1 ++ d2)
  | (some (id0, _), toks, d2) =>
    match importPathLoop fuel toks [id0] with
    | (none, toks, d3) => (none, toks, d1 ++ d2 ++ d3)
    | (some path, toks, d3) =>
      let d4 : List Diag :=
        if !attrs.isEmpty then [⟨attrs.lsqLoc.getD 0, .import_attributes⟩] else []
      (some (.importD importLoc path ctx), toks, d1 ++ d2 ++ d3 ++ d4)

/-- `Parser::parseDeclTypeAlias` (ParseDecl.cpp:358). -/
def parseDeclTypeAlias (O : Oracles) (st : PState) : Option Decl × PState :=
  let taLoc := (curTok st.toks).loc
  let st1 := {st with toks := st.toks.tail}
  match parseIdentifierTok .expected_identifier_in_decl st1.toks with
  | (none, toks, ds) => (none, {st1 with toks := toks, diags := st1.diags ++ ds})
  | (some (id, _), toks, ds) =>
    let st2 := {st1 with toks := toks, diags := st1.diags ++ ds}
    if (curTok st2.toks).kind = .colon then
      let st3 := {st2 with toks := st2.toks.tail}
      match O.parseType st3.toks with
      | none =>
        (none, {st3 with
          diags := st3.diags ++ [⟨(curTok st3.toks).loc, .expected_type_in_typealias⟩]})
      | some (ty, toks') =>
        let st4 := {st3 with toks := toks'}
        let (aid, st5) := addTypeAliasToScope taLoc id (some ty) st4
        (some (mkAliasDecl aid st5), st5)
    else
      (none, {st2 with
        diags := st2.diags ++ [⟨(curTok st2.toks).loc, .expected_colon_in_typealias⟩]})

mutual
/-- `Parser::parseVarName` (ParseDecl.cpp:319): a single identifier or
operator name, or a parenthesized (possibly empty, possibly nested) list of
sub-patterns.  A missing `)` is reported but the pattern is still built. -/
def parseVarName (fuel : Nat) (toks : List Token) :
    Option DeclVarName × List Token × List Diag :=
  match fuel with
  | 0 => (none, toks, [])
  | fuel + 1 =>
    let t := curTok toks
    if t.kind = .identifier ∨ t.kind = .oper then
      (some (.simple t.text t.loc), toks.tail, [])
    else if t.kind ≠ .l_paren ∧ t.kind ≠ .l_paren_space then
      (none, toks, [⟨t.loc, .expected_lparen_var_name⟩])
    else
      let lpLoc := t.loc
      let toks := toks.tail
      let (children?, toks, d1) :=
        if (curTok toks).kind = .r_paren then (some [], toks, ([] : List Diag))
        else parseVarNameList fuel toks
      match children? with
      | none => (none, toks, d1)
      | some cs =>
        let rp := curTok toks
        if rp.kind = .r_paren then
          (some (.tupleN lpLoc cs rp.loc), toks.tail, d1)
        else
          (some (.tupleN lpLoc cs rp.loc), toks,
           d1 ++ [⟨rp.loc, .expected_rparen_var_name⟩, ⟨lpLoc, .opening_paren⟩])

/-- The `do { ... } while (consumeIf(comma))` child loop of `parseVarName`. -/
def parseVarNameList (fuel : Nat) (toks : List Token) :
    Option (List DeclVarName) × List Token × List Diag :=
  match fuel with
  | 0 => (none, toks, [])
  | fuel + 1 =>
    match parseVarName fuel toks with
    | (none, toks, ds) => (none, toks, ds)
    | (some elt, toks, ds) =>
      if (curTok toks).kind = .comma then
        let toks := toks.tail
        match parseVarNameList fuel toks with
        | (none, toks, ds2) => (none, toks, ds ++ ds2)
        | (some rest, toks, ds2) => (some (elt :: rest), toks, ds ++ ds2)
      else (some [elt], toks, ds)
end

mutual
/-- `Parser::actOnVarDeclName` (ParseDecl.cpp:375): walk a composite var
pattern, creating one `ElementRefDecl` per leaf (with the access path from
the root) and inserting it into scope; a leaf whose projected type is
invalid is diagnosed and omitted. -/
def actOnVarDeclName (vd : VarDecl) (ctx : Ctx) (name : DeclVarName)
    (accessPath : List Nat) (st : PState) (decls : List (Option Decl)) :
    PState × List (Option Decl) :=
  match name with
  | .simple id loc =>
    match getTypeForPath vd.ty accessPath with
    | none =>
      ({st with diags := st.diags ++ [⟨loc, .invalid_index_in_var_name_path⟩]}, decls)
    | some ty =>
      let erd : ElementRefDecl := ⟨vd, loc, id, accessPath, ty, ctx⟩
      (addToScope (.elementRef erd) st, decls ++ [some (.elementRef erd)])
  | .tupleN _ children _ => actOnVarDeclNameList vd ctx children 0 accessPath st decls

/-- The indexed loop over the children of a composite pattern node. -/
def actOnVarDeclNameList (vd : VarDecl) (ctx : Ctx) (cs : List DeclVarName)
    (idx : Nat) (accessPath : List Nat) (st : PState)
    (decls : List (Option Decl)) : PState × List (Option Decl) :=
  match cs with
  | [] => (st, decls)
  | c :: rest =>
    let (st', decls') := actOnVarDeclName vd ctx c (accessPath ++ [idx]) st decls
    actOnVarDeclNameList vd ctx rest (idx + 1) accessPath st' decls'
end

/-- `Parser::parseDeclVar` (ParseDecl.cpp:417).  Note the source comment:
vars are not allowed to be recursive, so bindings enter scope only *after*
the value specifier (type and initializer) has been parsed. -/
def parseDeclVar (fuel : Nat) (O : Oracles) (st : PState)
    (decls : List (Option Decl)) : Bool × List (Option Decl) × PState :=
  let varLoc := (curTok st.toks).loc
  let toks0 := st.toks.tail
  let (attrs, toks1, d1) := parseAttributeList fuel toks0
  match parseVarName fuel toks1 with
  | (none, toks2, d2) =>
    (true, decls, {st with toks := toks2, diags := st.diags ++ d1 ++ d2})
  | (some vn, toks2, d2) =>
    let st1 := {st with toks := toks2, diags := st.diags ++ d1 ++ d2}
    match O.parseValueSpec st1.scope st1.toks with
    | none => (true, decls, st1)
    | some ((oTy, oInit), toks3) =>
      let st2 := {st1 with toks := toks3}
      let ty := oTy.getD .dependent
      match vn with
      | .simple id _ =>
        let vd : VarDecl := ⟨varLoc, some id, none, ty, oInit, attrs, st2.curCtx⟩
        (false, decls ++ [some (.var vd)], addToScope (.var vd) st2)
      | .tupleN lp cs rp =>
        let vd : VarDecl :=
          ⟨varLoc, none, some (.tupleN lp cs rp), ty, oInit, attrs, st2.curCtx⟩
        let decls1 := decls ++ [some (.var vd)]
        let (st3, decls2) :=
          actOnVarDeclName vd st2.curCtx (.tupleN lp cs rp) [] st2 decls1
        (false, decls2, st3)

/-- `Parser::parseDeclVarSimple` (ParseDecl.cpp:466): run `parseDeclVar`
into a private list and accept only a lone `VarDecl` result. -/
def parseDeclVarSimple (fuel : Nat) (O : Oracles) (st : PState) :
    Option VarDecl × PState :=
  let curLoc := (curTok st.toks).loc
  match parseDeclVar fuel O st [] with
  | (true, _, st') => (none, st')
  | (false, decls, st') =>
    match decls with
    | [some (.var vd)] => (some vd, st')
    | _ => (none, {st' with diags := st'.diags ++ [⟨curLoc, .non_simple_var⟩]})

/-- Modelled from the spec: `Parser::actOnFuncExprStart` — open the
function-body environment (a fresh `FuncExpr` identity; its argument
declarations are visible only inside the pushed body scope). -/
def actOnFuncExprStart (st : PState) : Nat × PState :=
  (st.nextTypeId, {st with nextTypeId := st.nextTypeId + 1})

/-- `Parser::parseDeclFunc` (ParseDecl.cpp:490).  `receiverTy` is the
protocol self-type when parsing a protocol member; method syntax
(`Type::name`) otherwise installs the looked-up receiver type.  The body is
parsed inside a pushed scope (restored afterwards); a body parse failure
discards the body but still produces the `FuncDecl`. -/
def parseDeclFunc (fuel : Nat) (O : Oracles) (receiverTy : Option Ty)
    (st : PState) : Option FuncDecl × PState :=
  let funcLoc := (curTok st.toks).loc
  let st := {st with toks := st.toks.tail}
  let (attrs, toks1, d1) := parseAttributeList fuel st.toks
  let st := {st with toks := toks1, diags := st.diags ++ d1}
  let typeNameLoc := (curTok st.toks).loc
  match parseIdentifierTok .expected_identifier_in_decl st.toks with
  | (none, toks, ds) => (none, {st with toks := toks, diags := st.diags ++ ds})
  | (some (name0, _), toks, ds) =>
    let st := {st with toks := toks, diags := st.diags ++ ds}
    -- Method syntax: the first name was the receiver type.
    let (receiverTy, nameRes, st) :=
      if receiverTy.isNone ∧ (curTok st.toks).kind = .coloncolon then
        let st := {st with toks := st.toks.tail}
        let (rty, st) := lookupOrInsertTypeName name0 typeNameLoc st
        match parseIdentifierTok .expected_identifier_in_decl st.toks with
        | (none, toks, ds) =>
          ((some rty : Option Ty), (none : Option String),
           {st with toks := toks, diags := st.diags ++ ds})
        | (some (n, _), toks, ds) =>
          (some rty, some n, {st with toks := toks, diags := st.diags ++ ds})
      else (receiverTy, some name0, st)
    match nameRes with
    | none => (none, st)
    | some name =>
      let t := curTok st.toks
      if t.kind ≠ .l_paren ∧ t.kind ≠ .l_paren_space then
        (none, {st with diags := st.diags ++ [⟨t.loc, .func_decl_without_paren⟩]})
      else
        match O.parseType st.toks with
        | none => (none, st)
        | some (wty, toks') =>
          let st := {st with toks := toks'}
          -- A type with no top-level arrow implicitly returns ().
          let fty0 := if wty.isFnTy then wty else .fn wty (.tuple [])
          -- A receiver becomes a leading (this : ReceiverTy) tuple parameter.
          let fty :=
            match receiverTy with
            | some r => Ty.fn (.tuple [(some "this", r)]) fty0
            | none => fty0
          let savedScope := st.scope
          let savedCtx := st.curCtx
          let savedDepth := st.scopeDepth
          let (fid, st) := actOnFuncExprStart st
          let st := {st with scopeDepth := st.scopeDepth + 1, curCtx := .funcExprCtx fid}
          let (body, st) :=
            if (curTok st.toks).kind = .l_brace then
              match O.parseStmtBrace st.toks with
              | some (b, toks'') => ((some b : Option Stmt), {st with toks := toks''})
              | none => (none, st)
            else (none, st)
          let st := {st with scope := savedScope, curCtx := savedCtx,
                             scopeDepth := savedDepth}
          let fd : FuncDecl := ⟨funcLoc, name, fty, body, attrs, st.curCtx⟩
          (some fd, addToScope (.funcD fd) st)

/-- `Parser::OneOfElementInfo`. -/
structure OneOfEltInfo where
  name : String
  nameLoc : Nat
  eltType : Option Ty

/-- The two diagnostics for a duplicate oneof case: the duplicate site and
the first occurrence's location (found among the decls built so far). -/
def oneofDupDiags (nameI : String) (loc : Nat) (eltDecls : List OneOfEltDecl) :
    List Diag :=
  ⟨loc, .duplicate_oneof_element⟩ ::
    (match eltDecls.find? (fun d => d.name = nameI) with
     | some d => [⟨d.nameLoc, .previous_definition⟩]
     | none => [])

/-- The element loop of `actOnOneOfType`: first-wins duplicate rejection,
and the per-element type (`TmpTy`, or `payload -> TmpTy` when a payload is
present and a pretty name is available). -/
def oneofEltLoop (tmpTy : Ty) (pretty : Bool) (ctx : Ctx) (seen : List String)
    (eltDecls : List OneOfEltDecl) (diags : List Diag) :
    List OneOfEltInfo → List OneOfEltDecl × List Diag
  | [] => (eltDecls, diags)
  | e :: rest =>
    if e.name ∈ seen then
      oneofEltLoop tmpTy pretty ctx seen eltDecls
        (diags ++ oneofDupDiags e.name e.nameLoc eltDecls) rest
    else
      let eltTy :=
        match e.eltType with
        | some argTy => if pretty then Ty.fn argTy tmpTy else tmpTy
        | none => tmpTy
      let d : OneOfEltDecl := ⟨e.nameLoc, e.name, eltTy, e.eltType, ctx⟩
      oneofEltLoop tmpTy pretty ctx (e.name :: seen) (eltDecls ++ [d]) diags rest

/-- The result of `actOnOneOfType`: the constructed `OneOfType` (identity
plus final element declarations) and the retargeted member declarations. -/
structure OneOfActRes where
  oid : Nat
  elements : List OneOfEltDecl
  members : List (Option Decl)

/-- `Parser::actOnOneOfType` (ParseDecl.cpp:651).  With a pretty type name,
elements are typed via its alias type and the alias is completed to the new
union; otherwise elements get a temporary type and are patched to reference
the finished union afterwards (two-phase construction).  Element and member
declaration-contexts are retargeted to the new union. -/
def actOnOneOfType (oneOfLoc : Nat) (attrs : DeclAttributes)
    (elts : List OneOfEltInfo) (memberDecls : List (Option Decl))
    (pretty : Option Nat) (st : PState) : OneOfActRes × PState :=
  let st :=
    if !attrs.isEmpty then
      {st with diags := st.diags ++ [⟨attrs.lsqLoc.getD 0, .oneof_attributes⟩]}
    else st
  let tmpTy : Ty :=
    match pretty with
    | some aid => .aliasTy aid
    | none => .tuple []
  let (eltDecls0, newDiags) := oneofEltLoop tmpTy pretty.isSome st.curCtx [] [] [] elts
  let st := {st with diags := st.diags ++ newDiags}
  let oid := st.nextTypeId
  let st := {st with nextTypeId := oid + 1}
  let eltDecls1 := eltDecls0.map (fun d => {d with ctx := .oneofCtx oid})
  let members' := memberDecls.map (Option.map (Decl.setCtx (.oneofCtx oid)))
  match pretty with
  | some aid =>
    let result := eltDecls1
    let st := {st with oneofs := st.oneofs ++ [(oid, result)]}
    (⟨oid, result, members'⟩, setAliasUnderlying aid (some (.oneofRef oid)) st)
  | none =>
    let result := eltDecls1.map (fun d =>
      let eltTy :=
        match d.argTy with
        | some argTy => Ty.fn argTy (.oneofRef oid)
        | none => Ty.oneofRef oid
      {d with ty := eltTy})
    let st := {st with oneofs := st.oneofs ++ [(oid, result)]}
    (⟨oid, result, members'⟩, st)

/-- The comma-separated oneof-element list loop of `parseDeclOneOfBody`.
A failing payload type parse skips to `}` and aborts the whole body. -/
def parseOneOfElts (fuel : Nat) (O : Oracles) (toks : List Token)
    (acc : List OneOfEltInfo) :
    Option (List OneOfEltInfo) × List Token × List Diag :=
  match fuel with
  | 0 => (none, toks, [])
  | fuel + 1 =>
    let t := curTok toks
    if t.kind = .identifier then
      let toks := toks.tail
      if (curTok toks).kind = .colon then
        let toks := toks.tail
        match O.parseType toks with
        | none =>
          (none, skipUntil1 .r_brace toks,
           [⟨(curTok toks).loc, .expected_type_oneof_element⟩])
        | some (ty, toks') =>
          let acc := acc ++ [⟨t.text, t.loc, some ty⟩]
          if (curTok toks').kind = .comma then
            parseOneOfElts fuel O toks'.tail acc
          else (some acc, toks', [])
      else
        let acc := acc ++ [⟨t.text, t.loc, none⟩]
        if (curTok toks).kind = .comma then
          parseOneOfElts fuel O toks.tail acc
        else (some acc, toks, [])
    else (some acc, toks, [])

/-- The contextual restriction flags passed to `parseDecl`. -/
structure PDFlags where
  allowImport : Bool
  disallowVar : Bool
  disallowOps : Bool

/-- Modelled from the spec: `PD_Default` carries no allowances. -/
def PD_Default : PDFlags := ⟨false, false, false⟩

/-- `PD_DisallowVar | PD_DisallowOperators` (union/struct member bodies). -/
def PD_MemberFlags : PDFlags := ⟨false, true, true⟩

/-- The diagnostics the `parseDecl` validation loop emits for one new
declaration (ParseDecl.cpp:236-248): import outside file scope; var where
vars are disallowed, else an operator-named declaration where operators are
disallowed. -/
def validateEntry (flags : PDFlags) (d : Decl) : List Diag :=
  (match d with
   | .importD l _ _ => if !flags.allowImport then [⟨l, .import_inner_scope⟩] else []
   | _ => []) ++
  (match d with
   | .var vd => if flags.disallowVar then [⟨vd.loc, .disallowed_var_decl⟩] else []
   | _ => []) ++
  (match d with
   | .var vd =>
     if flags.disallowVar then []
     else if isOperatorName ((Decl.var vd).nameOf.getD "") ∧ flags.disallowOps then
       [⟨vd.loc, .operator_in_decl⟩]
     else []
   | .typeAliasD _ n l _ =>
     if isOperatorName n ∧ flags.disallowOps then [⟨l, .operator_in_decl⟩] else []
   | .elementRef e =>
     if isOperatorName e.name ∧ flags.disallowOps then [⟨e.loc, .operator_in_decl⟩]
     else []
   | .funcD f =>
     if isOperatorName f.name ∧ flags.disallowOps then [⟨f.loc, .operator_in_decl⟩]
     else []
   | .oneofElt e =>
     if isOperatorName e.name ∧ flags.disallowOps then [⟨e.nameLoc, .operator_in_decl⟩]
     else []
   | _ => [])

/-- The validation loop over the declarations a sub-parser just produced
(null entries cannot occur in the slice; the C++ loop dereferences them
unconditionally). -/
def validateEntries (flags : PDFlags) (ds : List (Option Decl)) : List Diag :=
  ds.flatMap (fun od =>
    match od with
    | some d => validateEntry flags d
    | none => [])

/-- A parse step's outcome: a value, an out-of-bounds vector access (the
C++ executes undefined behavior), or exhausted fuel. -/
inductive PR (α : Type) where
  | ok (a : α)
  | ub
  | fuelOut

/-- The member loop of `parseProtocolBody` (ParseDecl.cpp:846-865): a
`do/while` over `func` (parsed against the protocol self-type) and simple
`var` members; any other token is a hard error, as is a null member. -/
def parseProtocolLoop (fuel : Nat) (O : Oracles) (thisTy : Ty) (st : PState)
    (acc : List Decl) : Option (List Decl) × PState :=
  match fuel with
  | 0 => (none, st)
  | fuel + 1 =>
    let t := curTok st.toks
    match t.kind with
    | .r_brace => (some acc, st)
    | .kw_func =>
      match parseDeclFunc fuel O (some thisTy) st with
      | (none, st') => (none, st')
      | (some fd, st') =>
        let acc := acc ++ [Decl.funcD fd]
        if (curTok st'.toks).kind = .r_brace then (some acc, st')
        else parseProtocolLoop fuel O thisTy st' acc
    | .kw_var =>
      match parseDeclVarSimple fuel O st with
      | (none, st') => (none, st')
      | (some vd, st') =>
        let acc := acc ++ [Decl.var vd]
        if (curTok st'.toks).kind = .r_brace then (some acc, st')
        else parseProtocolLoop fuel O thisTy st' acc
    | _ =>
      (none, {st with diags := st.diags ++ [⟨t.loc, .expected_protocol_member⟩]})

/-- `Parser::parseProtocolBody` (ParseDecl.cpp:835).  After the closing
brace the protocol type is constructed, every member's declaration-context
is retargeted to it, and the enclosing alias is completed to point at it. -/
def parseProtocolBody (fuel : Nat) (O : Oracles) (protocolLoc : Nat)
    (attrs : DeclAttributes) (aid : Nat) (st : PState) : Bool × PState :=
  if (curTok st.toks).kind = .l_brace then
    let st := {st with toks := st.toks.tail}
    let thisTy := Ty.aliasTy aid
    match parseProtocolLoop fuel O thisTy st [] with
    | (none, st') => (true, st')
    | (some elems, st') =>
      let st' := {st' with toks := st'.toks.tail}  -- consume the r_brace
      let st' :=
        if !attrs.isEmpty then
          {st' with diags := st'.diags ++ [⟨attrs.lsqLoc.getD 0, .protocol_attributes⟩]}
        else st'
      let pid := st'.nextTypeId
      let elems' := elems.map (Decl.setCtx (.protoCtx pid))
      let st' := {st' with nextTypeId := pid + 1, protos := st'.protos ++ [(pid, elems')]}
      let st' := setAliasUnderlying aid (some (.protoRef pid)) st'
      (false, st')
  else
    (true, {st with
      diags := st.diags ++ [⟨(curTok st.toks).loc, .expected_lbrace_protocol_type⟩]})

/-- `Parser::parseDeclProtocol` (ParseDecl.cpp:808). -/
def parseDeclProtocol (fuel : Nat) (O : Oracles) (st : PState) :
    Option Decl × PState :=
  let protocolLoc := (curTok st.toks).loc
  let st := {st with toks := st.toks.tail}
  let (attrs, toks1, d1) := parseAttributeList fuel st.toks
  let st := {st with toks := toks1, diags := st.diags ++ d1}
  let nameLoc := (curTok st.toks).loc
  match parseIdentifierTok .expected_identifier_in_decl st.toks with
  | (none, toks, ds) => (none, {st with toks := toks, diags := st.diags ++ ds})
  | (some (name, _), toks, ds) =>
    let st := {st with toks := toks, diags := st.diags ++ ds}
    let (aid, st) := addTypeAliasToScope nameLoc name none st
    match parseProtocolBody fuel O protocolLoc attrs aid st with
    | (true, st') => (none, st')
    | (false, st') => (some (mkAliasDecl aid st'), st')

mutual
/-- `Parser::parseDecl` (ParseDecl.cpp:195): dispatch on the leading token,
then the unconditional `Entries.back()` null check (an out-of-bounds access
when the entry list is empty at that point), then validation of the new
entries against the restriction flags. -/
def parseDecl (fuel : Nat) (O : Oracles) (entries : List (Option Decl))
    (flags : PDFlags) (st : PState) : PR (List (Option Decl) × Bool × PState) :=
  match fuel with
  | 0 => .fuelOut
  | fuel + 1 =>
    let entryStart := entries.length
    let t := curTok st.toks
    let step : PR (List (Option Decl) × Bool × PState) :=
      match t.kind with
      | .kw_import =>
        let (d, toks, ds) := parseDeclImport fuel st.curCtx st.toks
        .ok (entries ++ [d], false, {st with toks := toks, diags := st.diags ++ ds})
      | .kw_extension =>
        match parseDeclExtension fuel O st with
        | .ok (d, st') => .ok (entries ++ [d], false, st')
        | .ub => .ub
        | .fuelOut => .fuelOut
      | .kw_var =>
        let (hadErr, entries', st') := parseDeclVar fuel O st entries
        .ok (entries', hadErr, st')
      | .kw_typealias =>
        let (d, st') := parseDeclTypeAlias O st
        .ok (entries ++ [d], false, st')
      | .kw_oneof =>
        match parseDeclOneOf fuel O st with
        | .ok (d, st') => .ok (entries ++ [d], false, st')
        | .ub => .ub
        | .fuelOut => .fuelOut
      | .kw_struct =>
        match parseDeclStruct fuel O st entries with
        | .ok (hadErr, entries', st') => .ok (entries', hadErr, st')
        | .ub => .ub
        | .fuelOut => .fuelOut
      | .kw_protocol =>
        let (d, st') := parseDeclProtocol fuel O st
        .ok (entries ++ [d], false, st')
      | .kw_func =>
        let (fd, st') := parseDeclFunc fuel O none st
        .ok (entries ++ [fd.map .funcD], false, st')
      | _ =>
        .ok (entries, true, {st with diags := st.diags ++ [⟨t.loc, .expected_decl⟩]})
    match step with
    | .ub => .ub
    | .fuelOut => .fuelOut
    | .ok (entries', hadErr, st') => parseDeclFinish flags entryStart entries' hadErr st'

/-- The tail of `parseDecl` (ParseDecl.cpp:229-248): pop a null last entry
(`Entries.back()` — out of bounds when the list is empty), then validate
every new entry against the flags, keeping the declarations. -/
def parseDeclFinish (flags : PDFlags) (entryStart : Nat)
    (entries : List (Option Decl)) (hadErr : Bool) (st : PState) :
    PR (List (Option Decl) × Bool × PState) :=
  match entries.getLast? with
  | none => .ub
  | some last =>
    let (entries', hadErr') :=
      match last with
      | none => (entries.dropLast, true)
      | some _ => (entries, hadErr)
    let newEntries := entries'.drop entryStart
    .ok (entries', hadErr',
         {st with diags := st.diags ++ validateEntries flags newEntries})

/-- The `while (Tok.isNot(r_brace) && Tok.isNot(eof)) { if (parseDecl(...))
skipUntilDeclRBrace(); }` member loops of extension/oneof/struct bodies. -/
def parseMemberDecls (fuel : Nat) (O : Oracles) (flags : PDFlags) (st : PState)
    (acc : List (Option Decl)) : PR (List (Option Decl) × PState) :=
  match fuel with
  | 0 => .fuelOut
  | fuel + 1 =>
    let t := curTok st.toks
    if t.kind = .r_brace ∨ t.kind = .eof then .ok (acc, st)
    else
      match parseDecl fuel O acc flags st with
      | .ub => .ub
      | .fuelOut => .fuelOut
      | .ok (acc', hadErr, st') =>
        let st' := if hadErr then {st' with toks := skipUntilDeclRBrace st'.toks} else st'
        parseMemberDecls fuel O flags st' acc'

/-- `Parser::parseDeclExtension` (ParseDecl.cpp:289). -/
def parseDeclExtension (fuel : Nat) (O : Oracles) (st : PState) :
    PR (Option Decl × PState) :=
  match fuel with
  | 0 => .fuelOut
  | fuel + 1 =>
    let extLoc := (curTok st.toks).loc
    let st := {st with toks := st.toks.tail}
    match O.parseTypeIdent st.toks with
    | none => .ok (none, st)
    | some (ty, toks') =>
      let st := {st with toks := toks'}
      if (curTok st.toks).kind = .l_brace then
        let lbLoc := (curTok st.toks).loc
        let st := {st with toks := st.toks.tail}
        match parseMemberDecls fuel O PD_Default st [] with
        | .ub => .ub
        | .fuelOut => .fuelOut
        | .ok (members, st') =>
          let st' :=
            if (curTok st'.toks).kind = .r_brace then {st' with toks := st'.toks.tail}
            else {st' with diags := st'.diags ++
                   [⟨(curTok st'.toks).loc, .expected_rbrace_extension⟩,
                    ⟨lbLoc, .opening_brace⟩]}
          .ok (some (.extD extLoc ty (members.filterMap id) st'.curCtx), st')
      else
        .ok (none, {st with
          diags := st.diags ++ [⟨(curTok st.toks).loc, .expected_lbrace_oneof_type⟩]})

/-- `Parser::parseDeclOneOf` (ParseDecl.cpp:578). -/
def parseDeclOneOf (fuel : Nat) (O : Oracles) (st : PState) :
    PR (Option Decl × PState) :=
  match fuel with
  | 0 => .fuelOut
  | fuel + 1 =>
    let oneOfLoc := (curTok st.toks).loc
    let st := {st with toks := st.toks.tail}
    let (attrs, toks1, d1) := parseAttributeList fuel st.toks
    let st := {st with toks := toks1, diags := st.diags ++ d1}
    let nameLoc := (curTok st.toks).loc
    match parseIdentifierTok .expected_identifier_in_decl st.toks with
    | (none, toks, ds) => .ok (none, {st with toks := toks, diags := st.diags ++ ds})
    | (some (name, _), toks, ds) =>
      let st := {st with toks := toks, diags := st.diags ++ ds}
      let (aid, st) := addTypeAliasToScope nameLoc name none st
      match parseDeclOneOfBody fuel O oneOfLoc attrs aid st with
      | .ub => .ub
      | .fuelOut => .fuelOut
      | .ok (true, st') => .ok (none, st')
      | .ok (false, st') => .ok (some (mkAliasDecl aid st'), st')

/-- `Parser::parseDeclOneOfBody` (ParseDecl.cpp:606): the brace-delimited
element list, then nested member declarations (vars and operators
disallowed), then `actOnOneOfType`. -/
def parseDeclOneOfBody (fuel : Nat) (O : Oracles) (oneOfLoc : Nat)
    (attrs : DeclAttributes) (aid : Nat) (st : PState) : PR (Bool × PState) :=
  match fuel with
  | 0 => .fuelOut
  | fuel + 1 =>
    if (curTok st.toks).kind = .l_brace then
      let lbLoc := (curTok st.toks).loc
      let st := {st with toks := st.toks.tail}
      match parseOneOfElts fuel O st.toks [] with
      | (none, toks, ds) => .ok (true, {st with toks := toks, diags := st.diags ++ ds})
      | (some infos, toks, ds) =>
        let st := {st with toks := toks, diags := st.diags ++ ds}
        match parseMemberDecls fuel O PD_MemberFlags st [] with
        | .ub => .ub
        | .fuelOut => .fuelOut
        | .ok (members, st') =>
          let st' :=
            if (curTok st'.toks).kind = .r_brace then {st' with toks := st'.toks.tail}
            else {st' with diags := st'.diags ++
                   [⟨(curTok st'.toks).loc, .expected_rbrace_oneof_type⟩,
                    ⟨lbLoc, .opening_brace⟩]}
          let (_, st'') := actOnOneOfType oneOfLoc attrs infos members (some aid) st'
          .ok (false, st'')
    else
      .ok (true, {st with
        diags := st.diags ++ [⟨(curTok st.toks).loc, .expected_lbrace_oneof_type⟩]})

/-- `Parser::parseDeclStruct` (ParseDecl.cpp:735): a struct is sugar for a
oneof with a single case whose payload is the field tuple; the case's
constructor declaration is additionally injected into the enclosing scope
and the entry list. -/
def parseDeclStruct (fuel : Nat) (O : Oracles) (st : PState)
    (entries : List (Option Decl)) : PR (Bool × List (Option Decl) × PState) :=
  match fuel with
  | 0 => .fuelOut
  | fuel + 1 =>
    let structLoc := (curTok st.toks).loc
    let st := {st with toks := st.toks.tail}
    let (attrs, toks1, d1) := parseAttributeList fuel st.toks
    let st := {st with toks := toks1, diags := st.diags ++ d1}
    match parseIdentifierTok .expected_identifier_in_decl st.toks with
    | (none, toks, ds) =>
      .ok (true, entries, {st with toks := toks, diags := st.diags ++ ds})
    | (some (name, _), toks, ds) =>
      let st := {st with toks := toks, diags := st.diags ++ ds}
      if (curTok st.toks).kind = .l_brace then
        let lbLoc := (curTok st.toks).loc
        let st := {st with toks := st.toks.tail}
        let (aid, st) := addTypeAliasToScope structLoc name none st
        match O.parseTupleBody lbLoc st.toks with
        | none => .ok (true, entries, st)
        | some (fields, toks') =>
          let st := {st with toks := toks'}
          -- Reject any unnamed members.
          let unnamedDs : List Diag := fields.filterMap (fun f =>
            if f.1.isNone then some ⟨lbLoc, .struct_unnamed_member⟩ else none)
          let st := {st with diags := st.diags ++ unnamedDs}
          match parseMemberDecls fuel O PD_MemberFlags st [] with
          | .ub => .ub
          | .fuelOut => .fuelOut
          | .ok (members, st') =>
            if (curTok st'.toks).kind = .r_brace then
              let st' := {st' with toks := st'.toks.tail}
              let entries := entries ++ [some (mkAliasDecl aid st')]
              let info : OneOfEltInfo := ⟨name, structLoc, some (.tuple fields)⟩
              let (res, st'') := actOnOneOfType structLoc attrs [info] members (some aid) st'
              match res.elements with
              | [e] =>
                .ok (false, entries ++ [some (.oneofElt e)], addToScope (.oneofElt e) st'')
              | _ =>
                -- unreachable: a single element info yields a single element
                .ok (false, entries, st'')
            else
              .ok (true, entries, {st' with diags := st'.diags ++
                [⟨(curTok st'.toks).loc, .expected_rbrace_struct⟩,
                 ⟨lbLoc, .opening_brace⟩]})
      else
        .ok (true, entries, {st with
          diags := st.diags ++ [⟨(curTok st.toks).loc, .expected_lbrace_struct⟩]})
end

/-- The translation unit's parser-facing results: the two unresolved-alias
lists recorded for the later resolution pass. -/
structure TU where
  unresolvedTypesForParser : List Nat
  unresolvedScopedTypesForParser : List Nat

/-- The end of `Parser::parseTranslationUnit` (ParseDecl.cpp:70-81): drain
the registry's worklist, keeping every alias that still has no underlying
type, and store both lists on the translation unit.  The state (in
particular its diagnostics) is returned unchanged. -/
def parseTranslationUnitEnd (st : PState) : TU × PState :=
  let unresolvedList := st.unresolved.filter (fun id => !hasUnderlyingType st id)
  (⟨unresolvedList, st.unresolvedScoped⟩, st)

/-! ### Leaf/access-path specification for destructuring patterns -/

/-- One leaf of a var pattern: its name, location, and the access path of
tuple-field indices from the root. -/
structure LeafInfo where
  name : String
  loc : Nat
  path : List Nat
deriving DecidableEq, Repr

mutual
/-- The leaves of a var pattern, each with the access path reached by
extending `pre` with the child indices along the way. -/
def leafPaths : DeclVarName → List Nat → List LeafInfo
  | .simple n l, pre => [⟨n, l, pre⟩]
  | .tupleN _ cs _, pre => leafPathsList cs 0 pre

/-- `leafPaths` over a child list starting at child index `idx`. -/
def leafPathsList : List DeclVarName → Nat → List Nat → List LeafInfo
  | [], _, _ => []
  | c :: rest, idx, pre => leafPaths c (pre ++ [idx]) ++ leafPathsList rest (idx + 1) pre
end

/-- The `ElementRefDecl` that `actOnVarDeclName` synthesizes for a leaf
(the projected type defaults to `dependent` only vacuously: the leaf is
created exactly when the projection is defined). -/
def mkErd (vd : VarDecl) (ctx : Ctx) (l : LeafInfo) : ElementRefDecl :=
  ⟨vd, l.loc, l.name, l.path, (getTypeForPath vd.ty l.path).getD .dependent, ctx⟩

/-- The scope entry the leaf's `ElementRefDecl` is registered under. -/
def erdEntry (vd : VarDecl) (ctx : Ctx) (l : LeafInfo) : String × Decl :=
  (l.name, .elementRef (mkErd vd ctx l))

/-! ### Concrete fixtures used by the verification theorems -/

/-- An oracle for inputs that never reach an external sub-parser. -/
def noOracle : Oracles :=
  ⟨fun _ => none, fun _ => none, fun _ _ => none, fun _ _ => none, fun _ => none⟩

/-- A fresh parser state over the given token stream. -/
def initSt (toks : List Token) : PState :=
  ⟨toks, [], [], [], [], [], 0, 0, [], [], .tu⟩

/-- Tokens of `oneof Color { red, green, blue }`. -/
def colorToks : List Token :=
  [⟨.kw_oneof, "oneof", 0⟩, ⟨.identifier, "Color", 1⟩, ⟨.l_brace, "", 2⟩,
   ⟨.identifier, "red", 3⟩, ⟨.comma, "", 4⟩, ⟨.identifier, "green", 5⟩,
   ⟨.comma, "", 6⟩, ⟨.identifier, "blue", 7⟩, ⟨.r_brace, "", 8⟩]

/-- Tokens of `oneof X { a, a }` (the second `a` at location 5). -/
def dupToks : List Token :=
  [⟨.kw_oneof, "oneof", 0⟩, ⟨.identifier, "X", 1⟩, ⟨.l_brace, "", 2⟩,
   ⟨.identifier, "a", 3⟩, ⟨.comma, "", 4⟩, ⟨.identifier, "a", 5⟩, ⟨.r_brace, "", 6⟩]

/-- The cases of the first oneof type built during a `parseDeclOneOf` run,
as (name, type) pairs. -/
def oneofCasesOf : PR (Option Decl × PState) → List (String × Ty)
  | .ok (_, st) => ((st.oneofs.headD (0, [])).2).map (fun e => (e.name, e.ty))
  | _ => []

/-- The diagnostics after a `parseDeclOneOf` run. -/
def oneofDiagsOf : PR (Option Decl × PState) → List Diag
  | .ok (_, st) => st.diags
  | _ => []

/-- The type `(Int, Int)` as the external type parser returns it. -/
def intPairTy : Ty := .tuple [(none, .base "Int"), (none, .base "Int")]

/-- An oracle whose value-specifier parser accepts `: (Int, Int) = (1, 2)`
at once, consuming nothing further (the initializer expression is the
opaque value 42). -/
def intPairOracle : Oracles :=
  ⟨fun _ => none, fun _ => none, fun _ _ => none,
   fun _ toks => some ((some intPairTy, some (42 : Nat)), toks), fun _ => none⟩

/-- Tokens of `var (a, b)` (the value specifier is consumed by the oracle). -/
def abVarToks : List Token :=
  [⟨.kw_var, "var", 0⟩, ⟨.l_paren, "", 1⟩, ⟨.identifier, "a", 2⟩, ⟨.comma, "", 3⟩,
   ⟨.identifier, "b", 4⟩, ⟨.r_paren, "", 5⟩]

/-- Tokens of `var ( )` — an empty composite pattern. -/
def emptyPatVarToks : List Token :=
  [⟨.kw_var, "var", 0⟩, ⟨.l_paren, "", 1⟩, ⟨.r_paren, "", 2⟩]

/-- The named field tuple of `struct Point { x : Int, y : Int }`. -/
def pointFields : List (Option String × Ty) :=
  [(some "x", .base "Int"), (some "y", .base "Int")]

/-- An oracle whose tuple-body parser returns the `Point` field tuple. -/
def pointOracle : Oracles :=
  ⟨fun _ => none, fun _ => none, fun _ toks => some (pointFields, toks),
   fun _ _ => none, fun _ => none⟩

/-- Tokens of `struct Point {` ... `}` with the body consumed by the oracle. -/
def pointToks : List Token :=
  [⟨.kw_struct, "struct", 0⟩, ⟨.identifier, "Point", 1⟩, ⟨.l_brace, "", 2⟩,
   ⟨.r_brace, "", 3⟩]

/-- An oracle whose type parser recognizes the token spelling `() -> Int`. -/
def fnIntOracle : Oracles :=
  ⟨fun toks =>
    match toks with
    | ⟨.l_paren, _, _⟩ :: ⟨.r_paren, _, _⟩ :: ⟨.arrow, _, _⟩ ::
        ⟨.identifier, "Int", _⟩ :: rest => some (.fn (.tuple []) (.base "Int"), rest)
    | _ => none,
   fun _ => none, fun _ _ => none, fun _ _ => none, fun _ => none⟩

/-- Tokens of `func Point::area() -> Int`. -/
def areaToks : List Token :=
  [⟨.kw_func, "func", 0⟩, ⟨.identifier, "Point", 1⟩, ⟨.coloncolon, "", 2⟩,
   ⟨.identifier, "area", 3⟩, ⟨.l_paren, "", 4⟩, ⟨.r_paren, "", 5⟩,
   ⟨.arrow, "", 6⟩, ⟨.identifier, "Int", 7⟩]

/-- Tokens of `protocol P { func f() -> Int }`. -/
def protoToks : List Token :=
  [⟨.kw_protocol, "protocol", 0⟩, ⟨.identifier, "P", 1⟩, ⟨.l_brace, "", 2⟩,
   ⟨.kw_func, "func", 3⟩, ⟨.identifier, "f", 4⟩, ⟨.l_paren, "", 5⟩, ⟨.r_paren, "", 6⟩,
   ⟨.arrow, "", 7⟩, ⟨.identifier, "Int", 8⟩, ⟨.r_brace, "", 9⟩]

/-- The members of the first protocol type built during a parse run, as
(name, declaration-context) pairs. -/
def protoMembersOf (r : Option Decl × PState) : List (String × Ctx) :=
  ((r.2.protos.headD (0, [])).2).map (fun m => ((Decl.nameOf m).getD "", Decl.ctxOf m))

/-- Tokens of `import M`. -/
def importToks : List Token := [⟨.kw_import, "import", 0⟩, ⟨.identifier, "M", 1⟩]

/-- Tokens of `var )` — a var declaration whose pattern parse fails before
anything is pushed into the entry list. -/
def varBadToks : List Token := [⟨.kw_var, "var", 0⟩, ⟨.r_paren, "", 1⟩]

/-- Tokens of the attribute list `[ bogus , infix_left ]`. -/
def unknownAttrToks : List Token :=
  [⟨.l_square, "", 0⟩, ⟨.identifier, "bogus", 1⟩, ⟨.comma, "", 2⟩,
   ⟨.identifier, "infix_left", 3⟩, ⟨.r_square, "", 4⟩]

/-- Tokens of the attribute list `[ infix = ! , infix_left = 50 ]` (a
malformed precedence value followed by a further attribute). -/
def badPrecAttrToks : List Token :=
  [⟨.l_square, "", 0⟩, ⟨.identifier, "infix", 1⟩, ⟨.equal, "", 2⟩, ⟨.oper, "!", 3⟩,
   ⟨.comma, "", 4⟩, ⟨.identifier, "infix_left", 5⟩, ⟨.equal, "", 6⟩,
   ⟨.numeric_constant, "50", 7⟩, ⟨.r_square, "", 8⟩]

/-- The state with one forward-reference stub `Foo` (as created when
`func Foo::bar` mentions an undefined receiver type) and nothing else. -/
def stubState : PState := (addTypeAliasToScope 5 "Foo" none (initSt [])).2

/-- The entry list of a `parseDecl` outcome. -/
def prEntries : PR (List (Option Decl) × Bool × PState) → List (Option Decl)
  | .ok (es, _, _) => es
  | _ => []

/-- The diagnostics of a `parseDecl` outcome. -/
def prDiags : PR (List (Option Decl) × Bool × PState) → List Diag
  | .ok (_, _, st) => st.diags
  | _ => []

/-- The names of the alias arena after a `parseDeclOneOf` run. -/
def oneofAliasesOf : PR (Option Decl × PState) → List String
  | .ok (_, st) => st.aliases.map (fun a => a.name)
  | _ => []

/-- The entry list of a `parseDeclStruct` outcome. -/
def prStructEntries : PR (Bool × List (Option Decl) × PState) → List (Option Decl)
  | .ok (_, es, _) => es
  | _ => []

/-- The oneof arena after a `parseDeclStruct` outcome. -/
def prStructOneofs : PR (Bool × List (Option Decl) × PState) → List (Nat × List OneOfEltDecl)
  | .ok (_, _, st) => st.oneofs
  | _ => []

/-- The newest scope entry after a `parseDeclStruct` outcome. -/
def prStructScopeHead : PR (Bool × List (Option Decl) × PState) → Option (String × Decl)
  | .ok (_, _, st) => st.scope.head?
  | _ => none

/-- The alias arena (name, underlying) after a `parseDeclStruct` outcome. -/
def prStructAliases : PR (Bool × List (Option Decl) × PState) → List (String × Option Ty)
  | .ok (_, _, st) => st.aliases.map (fun a => (a.name, a.underlying))
  | _ => []

/-- The constructor case `struct Point { x : Int, y : Int }` produces: the
single union case named `Point`, typed as a constructor from the field
tuple to the alias type (arena index 0), in the union's context. -/
def pointElt : OneOfEltDecl :=
  ⟨0, "Point", .fn (.tuple pointFields) (.aliasTy 0), some (.tuple pointFields),
   .oneofCtx 0⟩

/-- The `FuncDecl` produced for `func Point::area() -> Int`: typed
`(this : Point) -> (() -> Int)` with `Point` the forward-reference alias
at arena index 0. -/
def areaFD : FuncDecl :=
  ⟨0, "area", .fn (.tuple [(some "this", .aliasTy 0)]) (.fn (.tuple []) (.base "Int")),
   none, emptyDeclAttributes, .tu⟩

/-- The pattern `(a, b)` of `var (a, b)`. -/
def abPat : DeclVarName := .tupleN 1 [.simple "a" 2, .simple "b" 4] 5

/-- The composite `VarDecl` for `var (a, b) : (Int, Int) = (1, 2)`. -/
def abVD : VarDecl :=
  ⟨0, none, some abPat, intPairTy, some (42 : Nat), emptyDeclAttributes, .tu⟩

/-- The synthesized element reference `a`, access path `[0]`. -/
def aERD : ElementRefDecl := ⟨abVD, 2, "a", [0], .base "Int", .tu⟩

/-- The synthesized element reference `b`, access path `[1]`. -/
def bERD : ElementRefDecl := ⟨abVD, 4, "b", [1], .base "Int", .tu⟩

/-- The body tokens of `protocol P { func f() -> Int }`, from the `{`. -/
def protoBodyToks : List Token :=
  [⟨.l_brace, "", 2⟩, ⟨.kw_func, "func", 3⟩, ⟨.identifier, "f", 4⟩,
   ⟨.l_paren, "", 5⟩, ⟨.r_paren, "", 6⟩, ⟨.arrow, "", 7⟩,
   ⟨.identifier, "Int", 8⟩, ⟨.r_brace, "", 9⟩]

/-- The state in which the protocol body of `P` is parsed: the placeholder
alias `P` (arena index 0) has been registered, the `{` is current. -/
def protoStubSt : PState := (addTypeAliasToScope 1 "P" none (initSt protoBodyToks)).2

/-- The protocol member loop's run on the body of `P`. -/
def protoLoopRun : Option (List Decl) × PState :=
  parseProtocolLoop 8 fnIntOracle (.aliasTy 0)
    {protoStubSt with toks := protoBodyToks.tail} []

/-- The had-error flag of a `parseDeclStruct` outcome. -/
def prStructHadErr : PR (Bool × List (Option Decl) × PState) → Bool
  | .ok (e, _, _) => e
  | _ => true

/-- The underlying type recorded for alias `id` after a `parseDeclStruct`
outcome. -/
def prStructUnderlying (r : PR (Bool × List (Option Decl) × PState)) (id : Nat) :
    Option Ty :=
  match r with
  | .ok (_, _, st) => aliasUnderlyingIn st id
  | _ => none

/-- The parser state after `var (a, b) : (Int, Int) = (1, 2)`: tokens
consumed, both leaves in scope, no diagnostics. -/
def abResSt : PState :=
  ⟨[], [], [("b", .elementRef bERD), ("a", .elementRef aERD)], [], [], [], 0, 0,
   [], [], .tu⟩

/-- The same state after `parseDeclVarSimple` has additionally diagnosed
`non_simple_var` (the leaf insertions are not rolled back). -/
def abResStDiag : PState :=
  ⟨[], [⟨0, .non_simple_var⟩], [("b", .elementRef bERD), ("a", .elementRef aERD)],
   [], [], [], 0, 0, [], [], .tu⟩

/-- The composite `VarDecl` `parseDeclVar` synthesizes for a destructuring
pattern `(…)` with the given value-specifier results. -/
def compositeVD (loc lp rp : Nat) (cs : List DeclVarName) (oTy : Option Ty)
    (oInit : Option Expr) (ctx : Ctx) : VarDecl :=
  ⟨loc, none, some (.tupleN lp cs rp), oTy.getD .dependent, oInit,
   emptyDeclAttributes, ctx⟩

/-!
## Verification theorems
-/

/-- C1, counterexample.  The claim says every type-alias stub still
incomplete at end of file "is reported as an unresolved-type error at that
point" — that `parseTranslationUnit` "emits this diagnostic for each alias
that still has no underlying type".  On a state holding exactly one
still-incomplete stub (`Foo`), the end-of-file drain records the stub in
the translation unit's unresolved list but emits no diagnostic at all: the
diagnostic stream stays empty. -/
theorem parseTranslationUnitEnd_emits_no_diagnostic :
    (parseTranslationUnitEnd stubState).1.unresolvedTypesForParser = [0] ∧
      hasUnderlyingType stubState 0 = false ∧
      (parseTranslationUnitEnd stubState).2.diags = [] :=
  ⟨rfl, rfl, rfl⟩

/-- C1, amended.  At end of file `parseTranslationUnit` drains the scope
registry's worklist and *records* every alias that still has no underlying
type in the translation unit's `UnresolvedTypesForParser` list (the
block-scope list is copied wholesale), for a later resolution pass; it
emits no diagnostic itself — the parser state, diagnostics included, is
unchanged. -/
theorem parseTranslationUnitEnd_collects_stubs (st : PState) :
    (parseTranslationUnitEnd st).1.unresolvedTypesForParser
        = st.unresolved.filter (fun id => !hasUnderlyingType st id) ∧
      (parseTranslationUnitEnd st).1.unresolvedScopedTypesForParser
        = st.unresolvedScoped ∧
      (parseTranslationUnitEnd st).2 = st :=
  ⟨rfl, rfl, rfl⟩

/-- C9.  The claim asserts the `Entries.back()` null check after
`parseDecl`'s dispatch switch is in bounds for all inputs, including an
empty caller entry list with a failing `var` sub-parse.  It is not: on the
tokens `var )` the pattern parse fails before any entry is pushed, and with
an empty entry list the unconditional `Entries.back()` read is out of
bounds (`.ub` marks the embedded out-of-bounds vector access the C++
performs there). -/
theorem parseDecl_back_out_of_bounds :
    parseDecl 9 noOracle [] PD_Default (initSt varBadToks) = .ub := rfl

/-- C7, counterexample.  The claim says that for *every* malformed entry —
unknown attribute identifiers included — `parseAttribute` resynchronizes by
skipping to the next comma or the closing bracket, so the remaining
attributes in the list are still parsed and recorded.  On `[ bogus ,
infix_left ]` the unknown-attribute path skips straight to `]`, past the
comma: the later `infix_left` attribute is never parsed, and no fixity is
recorded. -/
theorem parseAttributeListPresent_unknown_attr_drops_rest :
    (parseAttributeListPresent 9 unknownAttrToks).1.fixAttr = none ∧
      (parseAttributeListPresent 9 unknownAttrToks).2.2
        = [⟨1, .unknown_attribute⟩] ∧
      (parseAttributeListPresent 9 unknownAttrToks).2.1 = [] :=
  ⟨rfl, rfl, rfl⟩

/-- C7, amended.  A malformed entry *after a recognized fixity keyword* (a
bad precedence-value token) is reported and the parser resynchronizes by
skipping to the next comma or the closing square bracket, so the remaining
attributes in the list are still parsed and recorded (on
`[ infix = ! , infix_left = 50 ]` the later `infix_left = 50` wins).  An
unknown attribute identifier, and a non-identifier where an attribute name
was expected, are reported but skip straight to the closing square bracket,
abandoning the remaining attributes of that list. -/
theorem parseAttribute_resync_behaviour :
    (∀ (attrs : DeclAttributes) (t : Token) (rest : List Token),
        t.kind = .identifier → assocFor t.text = none →
        parseAttribute attrs (t :: rest)
          = (true, attrs, skipUntil1 .r_square (t :: rest),
             [⟨t.loc, .unknown_attribute⟩])) ∧
    (∀ (attrs : DeclAttributes) (t : Token) (rest : List Token),
        t.kind ≠ .identifier →
        parseAttribute attrs (t :: rest)
          = (true, attrs, skipUntil1 .r_square (t :: rest),
             [⟨t.loc, .expected_attribute_name⟩])) ∧
    (∀ (attrs : DeclAttributes) (ft eqTok bad : Token) (rest : List Token)
        (assoc : Assoc),
        ft.kind = .identifier → assocFor ft.text = some assoc →
        attrs.isFix = false → eqTok.kind = .equal →
        bad.kind ≠ .numeric_constant →
        parseAttribute attrs (ft :: eqTok :: bad :: rest)
          = (false, {attrs with fixAttr := some ⟨100, assoc⟩},
             skipUntil2 .r_square .comma (bad :: rest),
             [⟨bad.loc, .expected_precedence_value⟩])) ∧
    ((parseAttributeListPresent 9 badPrecAttrToks).1.fixAttr = some ⟨50, .leftA⟩ ∧
      (parseAttributeListPresent 9 badPrecAttrToks).2.2
        = [⟨3, .expected_precedence_value⟩, ⟨5, .duplicate_attribute⟩]) := by
  refine ⟨?_, ?_, ?_, by decide, by decide⟩
  · intro attrs t rest ht ha
    simp [parseAttribute, curTok, ht, ha]
  · intro attrs t rest ht
    simp [parseAttribute, curTok, ht]
  · intro attrs ft eqTok bad rest assoc h1 h2 h3 h4 h5
    simp [parseAttribute, curTok, h1, h2, h4, h5, DeclAttributes.isFix] at *
    simp [h3]

/-- Witness for `parseAttribute_resync_behaviour`: the unknown-identifier
clause at `bogus`, and the malformed-precedence clause at `infix = !`. -/
theorem parseAttribute_resync_behaviour_witness :
    parseAttribute emptyDeclAttributes
        [⟨.identifier, "bogus", 1⟩, ⟨.comma, "", 2⟩, ⟨.identifier, "infix_left", 3⟩,
         ⟨.r_square, "", 4⟩]
      = (true, emptyDeclAttributes,
         skipUntil1 .r_square
           [⟨.identifier, "bogus", 1⟩, ⟨.comma, "", 2⟩,
            ⟨.identifier, "infix_left", 3⟩, ⟨.r_square, "", 4⟩],
         [⟨1, .unknown_attribute⟩]) ∧
    parseAttribute emptyDeclAttributes
        [⟨.identifier, "infix", 1⟩, ⟨.equal, "", 2⟩, ⟨.oper, "!", 3⟩, ⟨.r_square, "", 4⟩]
      = (false, {emptyDeclAttributes with fixAttr := some ⟨100, .noneA⟩},
         skipUntil2 .r_square .comma [⟨.oper, "!", 3⟩, ⟨.r_square, "", 4⟩],
         [⟨3, .expected_precedence_value⟩]) :=
  ⟨parseAttribute_resync_behaviour.1 _ _ _ rfl rfl,
   parseAttribute_resync_behaviour.2.2.1 _ _ _ _ _ _ rfl rfl rfl rfl (by decide)⟩

/-- The element loop never produces two cases with the same name: every
declaration already accumulated is named in `seen`, and names are only
added when unseen. -/
theorem oneofEltLoop_names_nodup (tmpTy : Ty) (pretty : Bool) (ctx : Ctx) :
    ∀ (elts : List OneOfEltInfo) (seen : List String) (acc : List OneOfEltDecl)
      (ds : List Diag),
      (∀ d ∈ acc, d.name ∈ seen) → (acc.map (fun d => d.name)).Nodup →
      ((oneofEltLoop tmpTy pretty ctx seen acc ds elts).1.map
          (fun d => d.name)).Nodup
  | [], _, _, _, _, hnd => by simpa [oneofEltLoop] using hnd
  | e :: rest, seen, acc, ds, hsub, hnd => by
    by_cases h : e.name ∈ seen
    · simp only [oneofEltLoop, if_pos h]
      exact oneofEltLoop_names_nodup tmpTy pretty ctx rest seen acc _ hsub hnd
    · simp only [oneofEltLoop, if_neg h]
      apply oneofEltLoop_names_nodup tmpTy pretty ctx rest (e.name :: seen) _ _
      · intro d hd
        rcases List.mem_append.mp hd with h1 | h1
        · exact List.mem_cons_of_mem _ (hsub d h1)
        · rcases List.mem_singleton.mp h1 with rfl
          exact List.mem_cons_self _ _
      · rw [List.map_append, List.nodup_append]
        refine ⟨hnd, List.nodup_singleton _, ?_⟩
        intro n hn hn'
        rcases List.mem_map.mp hn with ⟨d, hd, hde⟩
        rcases List.mem_map.mp hn' with ⟨d', hd', hde'⟩
        rcases List.mem_singleton.mp hd' with rfl
        have h2 : d.name = e.name := hde.trans hde'.symm
        exact h (h2 ▸ hsub d hd)

/-- C3.  Case names in a constructed union are unique (first occurrence
wins) for every input to `actOnOneOfType`; concretely, parsing
`oneof Color { red, green, blue }` yields exactly three cases, each typed
as the alias `Color` (arena index 0), with no diagnostics, while parsing
`oneof X { a, a }` reports `duplicate_oneof_element` at the second `a`
(location 5) and `previous_definition` at the first `a` (location 3), yet
still produces a union with exactly the one case `a` — sibling parsing and
the rest of the body continue (the union is completed and returned). -/
theorem actOnOneOfType_cases_unique_first_wins :
    (∀ (oneOfLoc : Nat) (attrs : DeclAttributes) (elts : List OneOfEltInfo)
        (members : List (Option Decl)) (pretty : Option Nat) (st : PState),
        ((actOnOneOfType oneOfLoc attrs elts members pretty st).1.elements.map
            (fun e => e.name)).Nodup) ∧
      oneofCasesOf (parseDeclOneOf 9 noOracle (initSt colorToks))
        = [("red", .aliasTy 0), ("green", .aliasTy 0), ("blue", .aliasTy 0)] ∧
      oneofAliasesOf (parseDeclOneOf 9 noOracle (initSt colorToks)) = ["Color"] ∧
      oneofDiagsOf (parseDeclOneOf 9 noOracle (initSt colorToks)) = [] ∧
      oneofCasesOf (parseDeclOneOf 9 noOracle (initSt dupToks)) = [("a", .aliasTy 0)] ∧
      oneofDiagsOf (parseDeclOneOf 9 noOracle (initSt dupToks))
        = [⟨5, .duplicate_oneof_element⟩, ⟨3, .previous_definition⟩] := by
  refine ⟨?_, rfl, rfl, rfl, rfl, rfl⟩
  intro oneOfLoc attrs elts members pretty st
  cases pretty with
  | none =>
    have base := oneofEltLoop_names_nodup (Ty.tuple []) false st.curCtx elts [] [] []
      (by simp) (by simp)
    simp only [actOnOneOfType, Option.isSome_none, List.map_map,
      apply_ite PState.curCtx, ite_self]
    convert base using 1
  | some aid =>
    have base := oneofEltLoop_names_nodup (Ty.aliasTy aid) true st.curCtx elts [] [] []
      (by simp) (by simp)
    simp only [actOnOneOfType, Option.isSome_some, List.map_map,
      apply_ite PState.curCtx, ite_self]
    convert base using 1

/-- Retargeting a declaration's context installs exactly that context. -/
theorem Decl.ctxOf_setCtx (c : Ctx) (d : Decl) : (d.setCtx c).ctxOf = c := by
  cases d <;> rfl

/-- Completing an alias leaves the protocol arena untouched. -/
theorem setAliasUnderlying_protos (id : Nat) (u : Option Ty) (st : PState) :
    (setAliasUnderlying id u st).protos = st.protos := by
  unfold setAliasUnderlying
  split <;> rfl

/-- Completing an alias in range installs exactly the given underlying type. -/
theorem aliasUnderlyingIn_setAliasUnderlying (id : Nat) (u : Option Ty) (st : PState)
    (h : id < st.aliases.length) :
    aliasUnderlyingIn (setAliasUnderlying id u st) id = u := by
  simp only [setAliasUnderlying, List.get?_eq_getElem?]
  rw [List.getElem?_eq_getElem h]
  simp [aliasUnderlyingIn, List.get?_eq_getElem?,
    List.getElem?_set_self (by simpa using h)]

/-- C8.  After the dispatch switch, `parseDecl` validates every newly
produced declaration against the contextual restriction flags and reports
violations *without discarding the declaration*: when the last entry is a
real declaration the entry list passes through unchanged and exactly the
validation diagnostics are appended; an import where imports are disallowed
yields `import_inner_scope`, a var where vars are disallowed yields
`disallowed_var_decl`, and an operator-named declaration where operators
are disallowed yields `operator_in_decl`.  Concretely, `parseDecl` on
`import M` under `PD_Default` keeps the import declaration in the entry
list while reporting `import_inner_scope`. -/
theorem parseDecl_validates_without_discarding :
    (∀ (flags : PDFlags) (entryStart : Nat) (entries : List (Option Decl))
        (hadErr : Bool) (st : PState) (d : Decl),
        entries.getLast? = some (some d) →
        parseDeclFinish flags entryStart entries hadErr st
          = .ok (entries, hadErr,
                 {st with diags := st.diags
                    ++ validateEntries flags (entries.drop entryStart)})) ∧
    (∀ (flags : PDFlags) (l : Nat) (p : List String) (c : Ctx),
        flags.allowImport = false →
        validateEntry flags (.importD l p c) = [⟨l, .import_inner_scope⟩]) ∧
    (∀ (flags : PDFlags) (vd : VarDecl), flags.disallowVar = true →
        validateEntry flags (.var vd) = [⟨vd.loc, .disallowed_var_decl⟩]) ∧
    (∀ (flags : PDFlags) (f : FuncDecl), flags.disallowOps = true →
        isOperatorName f.name = true →
        validateEntry flags (.funcD f) = [⟨f.loc, .operator_in_decl⟩]) ∧
    (prEntries (parseDecl 9 noOracle [] PD_Default (initSt importToks))
        = [some (.importD 0 ["M"] .tu)] ∧
      prDiags (parseDecl 9 noOracle [] PD_Default (initSt importToks))
        = [⟨0, .import_inner_scope⟩]) := by
  refine ⟨?_, ?_, ?_, ?_, rfl, rfl⟩
  · intro flags entryStart entries hadErr st d hlast
    simp [parseDeclFinish, hlast]
  · intro flags l p c h
    simp [validateEntry, h]
  · intro flags vd h
    simp [validateEntry, h]
  · intro flags f h1 h2
    simp [validateEntry, h1, h2]

/-- Witness for `parseDecl_validates_without_discarding`: the import
declaration of `import M`, in a context without `PD_AllowImport`, is
validated, diagnosed and retained. -/
theorem parseDecl_validates_without_discarding_witness :
    parseDeclFinish PD_Default 0 [some (.importD 0 ["M"] .tu)] false (initSt [])
      = .ok ([some (.importD 0 ["M"] .tu)], false,
             {initSt [] with diags := (initSt []).diags
                ++ validateEntries PD_Default ([some (.importD 0 ["M"] .tu)].drop 0)}) ∧
    validateEntry PD_Default (.importD 0 ["M"] .tu) = [⟨0, .import_inner_scope⟩] :=
  ⟨parseDecl_validates_without_discarding.1 PD_Default 0 [some (.importD 0 ["M"] .tu)]
      false (initSt []) (.importD 0 ["M"] .tu) rfl,
   parseDecl_validates_without_discarding.2.1 PD_Default 0 ["M"] .tu rfl⟩

/-- C6.  After the closing brace of a successfully parsed protocol body,
every member declaration's declaration-context is retargeted to the
finished protocol type (a `ProtocolType` identity, never the placeholder
alias), and the enclosing type alias's underlying type is completed to
point at that protocol type.  Concretely, after parsing
`protocol P { func f() -> Int }`, the member `f`'s declaration-context is
the finished protocol type (identity 1) and `P`'s alias underlying type is
that protocol type. -/
theorem parseProtocolBody_retargets_members :
    (∀ (fuel : Nat) (O : Oracles) (protocolLoc : Nat) (attrs : DeclAttributes)
        (aid : Nat) (st : PState) (lbTok : Token) (rest : List Token)
        (elems : List Decl) (st2 : PState),
        st.toks = lbTok :: rest → lbTok.kind = .l_brace → attrs.isEmpty = true →
        parseProtocolLoop fuel O (.aliasTy aid) {st with toks := rest} []
            = (some elems, st2) →
        aid < st2.aliases.length →
        ∃ st3, parseProtocolBody fuel O protocolLoc attrs aid st = (false, st3) ∧
          st3.protos = st2.protos
            ++ [(st2.nextTypeId, elems.map (Decl.setCtx (.protoCtx st2.nextTypeId)))] ∧
          (∀ d ∈ elems.map (Decl.setCtx (.protoCtx st2.nextTypeId)),
             Decl.ctxOf d = .protoCtx st2.nextTypeId) ∧
          aliasUnderlyingIn st3 aid = some (.protoRef st2.nextTypeId)) ∧
    protoMembersOf (parseDeclProtocol 9 fnIntOracle (initSt protoToks))
        = [("f", .protoCtx 1)] ∧
    (parseDeclProtocol 9 fnIntOracle (initSt protoToks)).2.aliases.map
        (fun a => (a.name, a.underlying))
        = [("P", some (.protoRef 1))] := by
  refine ⟨?_, rfl, rfl⟩
  intro fuel O protocolLoc attrs aid st lbTok rest elems st2 h1 h2 h3 h4 h5
  have hbody : parseProtocolBody fuel O protocolLoc attrs aid st
      = (false, setAliasUnderlying aid (some (.protoRef st2.nextTypeId))
          {st2 with toks := st2.toks.tail,
                    nextTypeId := st2.nextTypeId + 1,
                    protos := st2.protos ++ [(st2.nextTypeId,
                      elems.map (Decl.setCtx (.protoCtx st2.nextTypeId)))]}) := by
    simp [parseProtocolBody, curTok, h1, h2, h3, h4]
  refine ⟨_, hbody, ?_, ?_, ?_⟩
  · rw [setAliasUnderlying_protos]
  · intro d hd
    rcases List.mem_map.mp hd with ⟨m, hm, rfl⟩
    exact Decl.ctxOf_setCtx _ m
  · exact aliasUnderlyingIn_setAliasUnderlying _ _ _ h5

/-- A type with no arrow anywhere is not spelled as a function type. -/
theorem isFnTy_eq_false_of_no_arrow (w : Ty) (h : containsArrow w = false) :
    w.isFnTy = false := by
  cases w <;> simp_all [containsArrow, Ty.isFnTy]

/-- Registering a type name does not consume tokens. -/
theorem addTypeAliasToScope_toks (loc : Nat) (n : String) (u : Option Ty)
    (st : PState) : (addTypeAliasToScope loc n u st).2.toks = st.toks := by
  unfold addTypeAliasToScope
  split
  · split <;> simp [setAliasUnderlying] <;> split <;> rfl
  · rfl

/-- Registering a type name does not change the declaration context. -/
theorem addTypeAliasToScope_curCtx (loc : Nat) (n : String) (u : Option Ty)
    (st : PState) : (addTypeAliasToScope loc n u st).2.curCtx = st.curCtx := by
  unfold addTypeAliasToScope
  split
  · split <;> simp [setAliasUnderlying] <;> split <;> rfl
  · rfl

/-- Looking up an already-registered type name returns its arena index. -/
theorem addTypeAliasToScope_fst_some (loc : Nat) (n : String) (u : Option Ty)
    (st : PState) (id : Nat) (hl : lookupTypeAliasId n st.scope = some id) :
    (addTypeAliasToScope loc n u st).1 = id := by
  unfold addTypeAliasToScope
  simp only [hl]
  split <;> rfl

/-- Registering a fresh type name stubs it at the end of the arena. -/
theorem addTypeAliasToScope_fst_none (loc : Nat) (n : String) (u : Option Ty)
    (st : PState) (hl : lookupTypeAliasId n st.scope = none) :
    (addTypeAliasToScope loc n u st).1 = st.aliases.length := by
  unfold addTypeAliasToScope
  simp only [hl]

/-- C4.  For every successfully parsed `func`: (i) the computed function
type wraps the written parameter type `w` as `w -> ()` exactly when `w` is
not spelled as a function type, so (ii) if the written type contains no
arrow the function type is `w -> ()`; and (iii) when a receiver type is
present (method syntax `Type::name`), the final type is a function from the
one-element named tuple `(this : ReceiverType)` to the otherwise-computed
type.  Concretely, `func Point::area() -> Int` types as
`(this : Point) -> (() -> Int)` with `Point` the forward-reference alias. -/
theorem parseDeclFunc_receiver_and_implicit_return :
    (∀ (fuel : Nat) (O : Oracles) (st : PState) (recv : Option Ty)
        (funcTok nameTok : Token) (rest toks1 : List Token) (w : Ty),
        st.toks = funcTok :: nameTok :: rest →
        nameTok.kind = .identifier →
        (curTok rest).kind = .l_paren →
        O.parseType rest = some (w, toks1) →
        ((parseDeclFunc fuel O recv st).1.map (fun fd => (fd.name, fd.ty)))
          = some (nameTok.text,
              match recv with
              | some r => Ty.fn (.tuple [(some "this", r)])
                  (if w.isFnTy then w else .fn w (.tuple []))
              | none => (if w.isFnTy then w else .fn w (.tuple [])))) ∧
    (∀ (fuel : Nat) (O : Oracles) (st : PState) (recv : Option Ty)
        (funcTok nameTok : Token) (rest toks1 : List Token) (w : Ty),
        st.toks = funcTok :: nameTok :: rest →
        nameTok.kind = .identifier →
        (curTok rest).kind = .l_paren →
        O.parseType rest = some (w, toks1) →
        containsArrow w = false →
        ((parseDeclFunc fuel O recv st).1.map (fun fd => (fd.name, fd.ty)))
          = some (nameTok.text,
              match recv with
              | some r => Ty.fn (.tuple [(some "this", r)]) (.fn w (.tuple []))
              | none => Ty.fn w (.tuple []))) ∧
    (∀ (fuel : Nat) (O : Oracles) (st : PState)
        (funcTok tyTok ccTok nameTok : Token) (rest toks1 : List Token) (w : Ty)
        (rid : Nat),
        st.toks = funcTok :: tyTok :: ccTok :: nameTok :: rest →
        tyTok.kind = .identifier →
        ccTok.kind = .coloncolon →
        nameTok.kind = .identifier →
        (curTok rest).kind = .l_paren →
        O.parseType rest = some (w, toks1) →
        (addTypeAliasToScope tyTok.loc tyTok.text none
            {st with toks := nameTok :: rest}).1 = rid →
        ((parseDeclFunc fuel O none st).1.map (fun fd => (fd.name, fd.ty)))
          = some (nameTok.text,
              Ty.fn (.tuple [(some "this", .aliasTy rid)])
                (if w.isFnTy then w else .fn w (.tuple [])))) ∧
    (parseDeclFunc 9 fnIntOracle none (initSt areaToks)).1 = some areaFD := by
  have hplain : ∀ (fuel : Nat) (O : Oracles) (st : PState) (recv : Option Ty)
      (funcTok nameTok : Token) (rest toks1 : List Token) (w : Ty),
      st.toks = funcTok :: nameTok :: rest →
      nameTok.kind = .identifier →
      (curTok rest).kind = .l_paren →
      O.parseType rest = some (w, toks1) →
      ((parseDeclFunc fuel O recv st).1.map (fun fd => (fd.name, fd.ty)))
        = some (nameTok.text,
            match recv with
            | some r => Ty.fn (.tuple [(some "this", r)])
                (if w.isFnTy then w else .fn w (.tuple []))
            | none => (if w.isFnTy then w else .fn w (.tuple []))) := by
    intro fuel O st recv funcTok nameTok rest toks1 w h1 h2 h3 h4
    have h2' : nameTok.kind ≠ .l_square := by rw [h2]; decide
    have h3' : (curTok rest).kind ≠ .coloncolon := by rw [h3]; decide
    simp only [curTok, List.headD_eq_head?_getD] at h3 h3'
    cases recv with
    | none =>
      by_cases hb : (curTok toks1).kind = .l_brace <;>
        simp only [curTok, List.headD_eq_head?_getD] at hb
      · rcases hsb : O.parseStmtBrace toks1 with _ | ⟨b, toks2⟩ <;>
          simp [parseDeclFunc, parseAttributeList, parseIdentifierTok, curTok, h1, h2,
            h2', h3, h3', h4, hb, hsb, actOnFuncExprStart]
      · simp [parseDeclFunc, parseAttributeList, parseIdentifierTok, curTok, h1, h2,
          h2', h3, h3', h4, hb, actOnFuncExprStart]
    | some r =>
      by_cases hb : (curTok toks1).kind = .l_brace <;>
        simp only [curTok, List.headD_eq_head?_getD] at hb
      · rcases hsb : O.parseStmtBrace toks1 with _ | ⟨b, toks2⟩ <;>
          simp [parseDeclFunc, parseAttributeList, parseIdentifierTok, curTok, h1, h2,
            h2', h3, h3', h4, hb, hsb, actOnFuncExprStart]
      · simp [parseDeclFunc, parseAttributeList, parseIdentifierTok, curTok, h1, h2,
          h2', h3, h3', h4, hb, actOnFuncExprStart]
  refine ⟨hplain, ?_, ?_, rfl⟩
  · intro fuel O st recv funcTok nameTok rest toks1 w h1 h2 h3 h4 hw
    rw [hplain fuel O st recv funcTok nameTok rest toks1 w h1 h2 h3 h4]
    rw [isFnTy_eq_false_of_no_arrow w hw]
    cases recv <;> simp
  · intro fuel O st funcTok tyTok ccTok nameTok rest toks1 w rid h1 h2 hcc h2b h3
      h4 hrid
    have h2' : tyTok.kind ≠ .l_square := by rw [h2]; decide
    simp only [curTok, List.headD_eq_head?_getD] at h3
    by_cases hb : (curTok toks1).kind = .l_brace <;>
      simp only [curTok, List.headD_eq_head?_getD] at hb
    · rcases hsb : O.parseStmtBrace toks1 with _ | ⟨b, toks2⟩ <;>
        simp [parseDeclFunc, parseAttributeList, parseIdentifierTok, curTok,
          lookupOrInsertTypeName, h1, h2, h2', hcc, h2b, h3, h4, hb, hsb,
          actOnFuncExprStart, addTypeAliasToScope_toks, addTypeAliasToScope_curCtx,
          hrid]
    · simp [parseDeclFunc, parseAttributeList, parseIdentifierTok, curTok,
        lookupOrInsertTypeName, h1, h2, h2', hcc, h2b, h3, h4, hb,
        actOnFuncExprStart, addTypeAliasToScope_toks, addTypeAliasToScope_curCtx,
        hrid]

/-- Witness for `parseDeclFunc_receiver_and_implicit_return`: the
method-syntax clause at `func Point::area() -> Int`. -/
theorem parseDeclFunc_receiver_and_implicit_return_witness :
    ((parseDeclFunc 9 fnIntOracle none (initSt areaToks)).1.map
        (fun fd => (fd.name, fd.ty)))
      = some ("area",
          Ty.fn (.tuple [(some "this", .aliasTy 0)])
            (if (Ty.fn (.tuple []) (.base "Int")).isFnTy
              then Ty.fn (.tuple []) (.base "Int")
              else .fn (.fn (.tuple []) (.base "Int")) (.tuple []))) :=
  parseDeclFunc_receiver_and_implicit_return.2.2.1 9 fnIntOracle (initSt areaToks)
    ⟨.kw_func, "func", 0⟩ ⟨.identifier, "Point", 1⟩ ⟨.coloncolon, "", 2⟩
    ⟨.identifier, "area", 3⟩ (areaToks.drop 4) [] (.fn (.tuple []) (.base "Int")) 0
    rfl rfl rfl rfl rfl rfl rfl

/-- Witness for `parseProtocolBody_retargets_members`: the body of
`protocol P { func f() -> Int }` parsed against the placeholder alias `P`
(arena index 0). -/
theorem parseProtocolBody_retargets_members_witness :
    ∃ st3, parseProtocolBody 8 fnIntOracle 0 emptyDeclAttributes 0 protoStubSt
        = (false, st3) ∧
      st3.protos = protoLoopRun.2.protos
        ++ [(protoLoopRun.2.nextTypeId,
             (protoLoopRun.1.getD []).map
               (Decl.setCtx (.protoCtx protoLoopRun.2.nextTypeId)))] ∧
      (∀ d ∈ (protoLoopRun.1.getD []).map
           (Decl.setCtx (.protoCtx protoLoopRun.2.nextTypeId)),
         Decl.ctxOf d = .protoCtx protoLoopRun.2.nextTypeId) ∧
      aliasUnderlyingIn st3 0 = some (.protoRef protoLoopRun.2.nextTypeId) :=
  parseProtocolBody_retargets_members.1 8 fnIntOracle 0 emptyDeclAttributes 0
    protoStubSt ⟨.l_brace, "", 2⟩ protoBodyToks.tail (protoLoopRun.1.getD [])
    protoLoopRun.2 rfl rfl rfl rfl (by decide)

mutual
/-- `actOnVarDeclName` on a pattern whose leaf projections are all valid
produces exactly one `ElementRefDecl` per leaf — appended to the decl list
in leaf order, inserted into scope under the leaf names — and nothing
else. -/
theorem actOnVarDeclName_spec (vd : VarDecl) (ctx : Ctx) (n : DeclVarName) :
    ∀ (pre : List Nat) (st : PState) (decls : List (Option Decl)),
      (∀ l ∈ leafPaths n pre, (getTypeForPath vd.ty l.path).isSome = true) →
      actOnVarDeclName vd ctx n pre st decls
        = ({st with scope := ((leafPaths n pre).map (erdEntry vd ctx)).reverse
              ++ st.scope},
           decls ++ (leafPaths n pre).map
              (fun l => some (.elementRef (mkErd vd ctx l)))) :=
  match n with
  | .simple id loc => by
    intro pre st decls hv
    have hv1 : (getTypeForPath vd.ty pre).isSome = true := by
      have := hv ⟨id, loc, pre⟩ (by simp [leafPaths])
      simpa using this
    rcases Option.isSome_iff_exists.mp hv1 with ⟨t, ht⟩
    simp [actOnVarDeclName, leafPaths, ht, addToScope, erdEntry, mkErd, Decl.nameOf]
  | .tupleN lp cs rp => by
    intro pre st decls hv
    have h := actOnVarDeclNameList_spec vd ctx cs 0 pre st decls (by
      intro l hl
      exact hv l (by simpa [leafPaths] using hl))
    simpa [actOnVarDeclName, leafPaths] using h

/-- `actOnVarDeclName_spec` over the children of a composite pattern. -/
theorem actOnVarDeclNameList_spec (vd : VarDecl) (ctx : Ctx) (cs : List DeclVarName) :
    ∀ (idx : Nat) (pre : List Nat) (st : PState) (decls : List (Option Decl)),
      (∀ l ∈ leafPathsList cs idx pre, (getTypeForPath vd.ty l.path).isSome = true) →
      actOnVarDeclNameList vd ctx cs idx pre st decls
        = ({st with scope := ((leafPathsList cs idx pre).map (erdEntry vd ctx)).reverse
              ++ st.scope},
           decls ++ (leafPathsList cs idx pre).map
              (fun l => some (.elementRef (mkErd vd ctx l)))) :=
  match cs with
  | [] => by
    intro idx pre st decls _
    simp [actOnVarDeclNameList, leafPathsList]
  | c :: rest => by
    intro idx pre st decls hv
    have hc := actOnVarDeclName_spec vd ctx c (pre ++ [idx]) st decls (by
      intro l hl
      exact hv l (by simp [leafPathsList]; exact Or.inl hl))
    have hr := actOnVarDeclNameList_spec vd ctx rest (idx + 1) pre
      ({st with scope := ((leafPaths c (pre ++ [idx])).map (erdEntry vd ctx)).reverse
          ++ st.scope})
      (decls ++ (leafPaths c (pre ++ [idx])).map
          (fun l => some (.elementRef (mkErd vd ctx l))))
      (by
        intro l hl
        exact hv l (by simp [leafPathsList]; exact Or.inr hl))
    simp only [actOnVarDeclNameList, hc, hr, leafPathsList]
    simp [List.reverse_append, List.append_assoc]
end

/-- `parseDeclVar` on a composite pattern: the value specifier is parsed
against the *incoming* scope, the composite `VarDecl` is appended to the
decl list but not inserted into scope, and one `ElementRefDecl` per leaf is
appended and inserted into scope. -/
theorem parseDeclVar_composite (fuel : Nat) (O : Oracles) (st : PState)
    (varTok : Token) (rest toks2 toks3 : List Token) (ds2 : List Diag)
    (lp rp : Nat) (cs : List DeclVarName) (oTy : Option Ty) (oInit : Option Expr)
    (h1 : st.toks = varTok :: rest)
    (h2 : (curTok rest).kind ≠ .l_square)
    (h3 : parseVarName fuel rest = (some (.tupleN lp cs rp), toks2, ds2))
    (h4 : O.parseValueSpec st.scope toks2 = some ((oTy, oInit), toks3))
    (h5 : ∀ l ∈ leafPaths (.tupleN lp cs rp) [],
        (getTypeForPath (oTy.getD .dependent) l.path).isSome = true) :
    parseDeclVar fuel O st []
      = (false,
         some (.var (compositeVD varTok.loc lp rp cs oTy oInit st.curCtx))
           :: (leafPaths (.tupleN lp cs rp) []).map
                (fun l => some (.elementRef
                  (mkErd (compositeVD varTok.loc lp rp cs oTy oInit st.curCtx)
                    st.curCtx l))),
         {st with toks := toks3, diags := st.diags ++ ds2,
                  scope := ((leafPaths (.tupleN lp cs rp) []).map
                    (erdEntry (compositeVD varTok.loc lp rp cs oTy oInit st.curCtx)
                      st.curCtx)).reverse ++ st.scope}) := by
  have hact := actOnVarDeclName_spec
    (compositeVD varTok.loc lp rp cs oTy oInit st.curCtx) st.curCtx
    (.tupleN lp cs rp) []
    {st with toks := toks3, diags := st.diags ++ ds2}
    [some (.var (compositeVD varTok.loc lp rp cs oTy oInit st.curCtx))] h5
  simp only [curTok, List.headD_eq_head?_getD] at h2
  simp [parseDeclVar, parseAttributeList, curTok, h1, h2, h3, h4, compositeVD]
    at hact ⊢
  rw [hact]
  simp

/-- C5.  For every destructuring `var` declaration with a composite
pattern whose leaf projections are valid, parsing yields exactly one
element-reference declaration per leaf of the pattern (in leaf order, with
the access path of tuple-field indices from the root), each inserted into
the enclosing scope under its leaf name; the composite `VarDecl` itself is
appended to the declaration list but inserted into scope under no name; and
the value specifier — hence the initializer expression — is parsed against
the scope *before* any leaf insertion (the hypothesis consults the oracle
at `st.scope`), so the initializer cannot observe the leaf bindings.
Concretely, `var (a, b) : (Int, Int) = (1, 2)` yields `a` with access path
`[0]` and `b` with access path `[1]`, both of type `Int`, both in scope. -/
theorem parseDeclVar_destructuring_leaves :
    (∀ (fuel : Nat) (O : Oracles) (st : PState) (varTok : Token)
        (rest toks2 toks3 : List Token) (ds2 : List Diag) (lp rp : Nat)
        (cs : List DeclVarName) (oTy : Option Ty) (oInit : Option Expr),
        st.toks = varTok :: rest →
        (curTok rest).kind ≠ .l_square →
        parseVarName fuel rest = (some (.tupleN lp cs rp), toks2, ds2) →
        O.parseValueSpec st.scope toks2 = some ((oTy, oInit), toks3) →
        (∀ l ∈ leafPaths (.tupleN lp cs rp) [],
            (getTypeForPath (oTy.getD .dependent) l.path).isSome = true) →
        parseDeclVar fuel O st []
          = (false,
             some (.var (compositeVD varTok.loc lp rp cs oTy oInit st.curCtx))
               :: (leafPaths (.tupleN lp cs rp) []).map
                    (fun l => some (.elementRef
                      (mkErd (compositeVD varTok.loc lp rp cs oTy oInit st.curCtx)
                        st.curCtx l))),
             {st with toks := toks3, diags := st.diags ++ ds2,
                      scope := ((leafPaths (.tupleN lp cs rp) []).map
                        (erdEntry (compositeVD varTok.loc lp rp cs oTy oInit
                          st.curCtx) st.curCtx)).reverse ++ st.scope})) ∧
    leafPaths abPat [] = [⟨"a", 2, [0]⟩, ⟨"b", 4, [1]⟩] ∧
    parseDeclVar 9 intPairOracle (initSt abVarToks) []
      = (false, [some (.var abVD), some (.elementRef aERD), some (.elementRef bERD)],
         abResSt) := by
  refine ⟨?_, rfl, rfl⟩
  intro fuel O st varTok rest toks2 toks3 ds2 lp rp cs oTy oInit h1 h2 h3 h4 h5
  exact parseDeclVar_composite fuel O st varTok rest toks2 toks3 ds2 lp rp cs oTy
    oInit h1 h2 h3 h4 h5

/-- Witness for `parseDeclVar_destructuring_leaves`: the declaration
`var (a, b) : (Int, Int) = (1, 2)`. -/
theorem parseDeclVar_destructuring_leaves_witness :
    parseDeclVar 9 intPairOracle (initSt abVarToks) []
      = (false,
         [some (.var abVD), some (.elementRef aERD), some (.elementRef bERD)],
         abResSt) :=
  parseDeclVar_destructuring_leaves.1 9 intPairOracle (initSt abVarToks)
    ⟨.kw_var, "var", 0⟩ (abVarToks.tail) [] [] [] 1 5 [.simple "a" 2, .simple "b" 4]
    (some intPairTy) (some (42 : Nat)) rfl (by decide) rfl rfl (by decide)

/-- C10, counterexample.  The claim says `parseDeclVarSimple`, invoked on a
var declaration with a composite (destructured) pattern, returns a null
result after diagnosing.  The grammar's composite pattern `( )` (an empty
parenthesized pattern, `var-name: '(' ')'`) refutes this: on
`var ( ) : (Int, Int) = (1, 2)` the private decl list holds exactly the
one composite `VarDecl`, so `parseDeclVarSimple` returns it — a non-null
result with no diagnostic at all. -/
theorem parseDeclVarSimple_empty_composite_pattern :
    (parseVarName 9 emptyPatVarToks.tail).1 = some (.tupleN 1 [] 2) ∧
      (DeclVarName.tupleN 1 [] 2).isSimple = false ∧
      (parseDeclVarSimple 9 intPairOracle (initSt emptyPatVarToks)).1.isSome = true ∧
      (parseDeclVarSimple 9 intPairOracle (initSt emptyPatVarToks)).2.diags = [] :=
  ⟨rfl, rfl, rfl, rfl⟩

/-- C10, amended.  `parseDeclVarSimple` is not atomic on failure: invoked
on a var declaration whose composite pattern has at least one leaf (with
valid leaf projections), it returns a null result after diagnosing
`non_simple_var`, but the scope insertions already performed while parsing
— one `ElementRefDecl` per leaf of the pattern — remain in the current
scope and are not rolled back. -/
theorem parseDeclVarSimple_not_atomic :
    ∀ (fuel : Nat) (O : Oracles) (st : PState) (varTok : Token)
      (rest toks2 toks3 : List Token) (ds2 : List Diag) (lp rp : Nat)
      (cs : List DeclVarName) (oTy : Option Ty) (oInit : Option Expr),
      st.toks = varTok :: rest →
      (curTok rest).kind ≠ .l_square →
      parseVarName fuel rest = (some (.tupleN lp cs rp), toks2, ds2) →
      O.parseValueSpec st.scope toks2 = some ((oTy, oInit), toks3) →
      (∀ l ∈ leafPaths (.tupleN lp cs rp) [],
          (getTypeForPath (oTy.getD .dependent) l.path).isSome = true) →
      leafPaths (.tupleN lp cs rp) [] ≠ [] →
      parseDeclVarSimple fuel O st
        = (none,
           {st with toks := toks3,
                    diags := (st.diags ++ ds2) ++ [⟨varTok.loc, .non_simple_var⟩],
                    scope := ((leafPaths (.tupleN lp cs rp) []).map
                      (erdEntry (compositeVD varTok.loc lp rp cs oTy oInit st.curCtx)
                        st.curCtx)).reverse ++ st.scope}) := by
  intro fuel O st varTok rest toks2 toks3 ds2 lp rp cs oTy oInit h1 h2 h3 h4 h5 hne
  have hcomp := parseDeclVar_composite fuel O st varTok rest toks2 toks3 ds2 lp rp
    cs oTy oInit h1 h2 h3 h4 h5
  rcases hls : leafPaths (.tupleN lp cs rp) [] with _ | ⟨l0, ls⟩
  · exact absurd hls hne
  · simp [parseDeclVarSimple, hcomp, hls, curTok, h1]

/-- Witness for `parseDeclVarSimple_not_atomic`: the protocol-style
invocation on `var (a, b) : (Int, Int) = (1, 2)`. -/
theorem parseDeclVarSimple_not_atomic_witness :
    parseDeclVarSimple 9 intPairOracle (initSt abVarToks) = (none, abResStDiag) :=
  parseDeclVarSimple_not_atomic 9 intPairOracle (initSt abVarToks)
    ⟨.kw_var, "var", 0⟩ (abVarToks.tail) [] [] [] 1 5 [.simple "a" 2, .simple "b" 4]
    (some intPairTy) (some (42 : Nat)) rfl (by decide) rfl rfl (by decide) (by decide)

/-- C2.  For every well-formed struct declaration with named fields,
`parseDeclStruct` produces a tagged union with exactly one case whose
payload type is the named field tuple, and additionally inserts that case's
synthesized constructor declaration — named after the struct — into the
enclosing scope and the returned declaration list; the struct's alias is
completed to the new union type.  Concretely,
`struct Point { x : Int, y : Int }` produces one union with the single case
`Point` of constructor type `(x : Int, y : Int) -> Point`. -/
theorem parseDeclStruct_single_case_union :
    (∀ (fuel : Nat) (O : Oracles) (st : PState) (entries : List (Option Decl))
        (sTok nTok lbTok rb : Token) (rest toks1 : List Token)
        (fields : List (Option String × Ty)),
        st.toks = sTok :: nTok :: lbTok :: rest →
        nTok.kind = .identifier →
        lbTok.kind = .l_brace →
        lookupTypeAliasId nTok.text st.scope = none →
        O.parseTupleBody lbTok.loc rest = some (fields, rb :: toks1) →
        (∀ f ∈ fields, (f.1).isSome = true) →
        rb.kind = .r_brace →
        prStructHadErr (parseDeclStruct (fuel + 2) O st entries) = false ∧
        prStructEntries (parseDeclStruct (fuel + 2) O st entries)
          = entries ++ [some (.typeAliasD st.aliases.length nTok.text sTok.loc
                          st.curCtx),
                        some (.oneofElt ⟨sTok.loc, nTok.text,
                          .fn (.tuple fields) (.aliasTy st.aliases.length),
                          some (.tuple fields), .oneofCtx st.nextTypeId⟩)] ∧
        prStructOneofs (parseDeclStruct (fuel + 2) O st entries)
          = st.oneofs ++ [(st.nextTypeId, [⟨sTok.loc, nTok.text,
              .fn (.tuple fields) (.aliasTy st.aliases.length),
              some (.tuple fields), .oneofCtx st.nextTypeId⟩])] ∧
        prStructScopeHead (parseDeclStruct (fuel + 2) O st entries)
          = some (nTok.text, .oneofElt ⟨sTok.loc, nTok.text,
              .fn (.tuple fields) (.aliasTy st.aliases.length),
              some (.tuple fields), .oneofCtx st.nextTypeId⟩) ∧
        prStructUnderlying (parseDeclStruct (fuel + 2) O st entries)
            st.aliases.length
          = some (.oneofRef st.nextTypeId)) ∧
    prStructHadErr (parseDeclStruct 9 pointOracle (initSt pointToks) []) = false ∧
    prStructEntries (parseDeclStruct 9 pointOracle (initSt pointToks) [])
      = [some (.typeAliasD 0 "Point" 0 .tu), some (.oneofElt pointElt)] ∧
    prStructOneofs (parseDeclStruct 9 pointOracle (initSt pointToks) [])
      = [(0, [pointElt])] ∧
    prStructScopeHead (parseDeclStruct 9 pointOracle (initSt pointToks) [])
      = some ("Point", .oneofElt pointElt) ∧
    prStructUnderlying (parseDeclStruct 9 pointOracle (initSt pointToks) []) 0
      = some (.oneofRef 0) := by
  refine ⟨?_, rfl, rfl, rfl, rfl, rfl⟩
  intro fuel O st entries sTok nTok lbTok rb rest toks1 fields h1 h2 h3 h4 h5 h6 h7
  have h2' : nTok.kind ≠ .l_square := by rw [h2]; decide
  have hnamed : fields.filterMap (fun f =>
      if f.1 = none then some (⟨lbTok.loc, .struct_unnamed_member⟩ : Diag) else none)
        = [] := by
    rw [List.filterMap_eq_nil_iff]
    intro f hf
    rcases Option.isSome_iff_exists.mp (h6 f hf) with ⟨v, hv⟩
    simp [hv]
  have hget : (st.aliases ++ [(⟨nTok.text, sTok.loc, none⟩ : AliasInfo)]).get?
      st.aliases.length = some ⟨nTok.text, sTok.loc, none⟩ := by
    simp
  refine ⟨?_, ?_, ?_, ?_, ?_⟩ <;>
    simp [parseDeclStruct, parseMemberDecls, parseAttributeList, parseIdentifierTok,
      curTok, addTypeAliasToScope, mkAliasDecl, actOnOneOfType, oneofEltLoop,
      setAliasUnderlying, aliasUnderlyingIn, prStructHadErr, prStructEntries,
      prStructOneofs, prStructScopeHead, prStructUnderlying, addToScope, Decl.nameOf,
      emptyDeclAttributes, DeclAttributes.isEmpty,
      h1, h2, h2', h3, h4, h5, h7, hnamed, hget, List.get?_eq_getElem?]

/-- Witness for `parseDeclStruct_single_case_union`:
`struct Point { x : Int, y : Int }` at fuel 7 + 2. -/
theorem parseDeclStruct_single_case_union_witness :
    prStructHadErr (parseDeclStruct (7 + 2) pointOracle (initSt pointToks) [])
        = false ∧
      prStructEntries (parseDeclStruct (7 + 2) pointOracle (initSt pointToks) [])
        = [] ++ [some (.typeAliasD 0 "Point" 0 .tu),
                 some (.oneofElt ⟨0, "Point", .fn (.tuple pointFields) (.aliasTy 0),
                   some (.tuple pointFields), .oneofCtx 0⟩)] ∧
      prStructOneofs (parseDeclStruct (7 + 2) pointOracle (initSt pointToks) [])
        = [] ++ [(0, [⟨0, "Point", .fn (.tuple pointFields) (.aliasTy 0),
            some (.tuple pointFields), .oneofCtx 0⟩])] ∧
      prStructScopeHead (parseDeclStruct (7 + 2) pointOracle (initSt pointToks) [])
        = some ("Point", .oneofElt ⟨0, "Point", .fn (.tuple pointFields) (.aliasTy 0),
            some (.tuple pointFields), .oneofCtx 0⟩) ∧
      prStructUnderlying (parseDeclStruct (7 + 2) pointOracle (initSt pointToks) []) 0
        = some (.oneofRef 0) :=
  parseDeclStruct_single_case_union.1 7 pointOracle (initSt pointToks) []
    ⟨.kw_struct, "struct", 0⟩ ⟨.identifier, "Point", 1⟩ ⟨.l_brace, "", 2⟩
    ⟨.r_brace, "", 3⟩ [⟨.r_brace, "", 3⟩] [] pointFields
    rfl rfl rfl rfl rfl (by decide) rfl

end Swift
